import Mathlib

/-!
Verification of the gifmeta GIF metadata parser.

The development shallowly embeds `src/gifmeta/gif.py` and
`src/gifmeta/constants.py`. Bytes are modelled as natural numbers
(actual file bytes are < 256; the parser never assumes this, so the
embedding does not either, except where a claim needs it). Fallible
operations return `Except GifError`. Mutable cursor state is passed
explicitly as a `Cursor` value.
-/

/-! ## Constants (from src/gifmeta/gif.py, module level) -/

def EXT_INTRODUCER : Nat := 0x21
def EXT_GRAPHIC_CONTROL_LABEL : Nat := 0xF9
def EXT_COMMENT_LABEL : Nat := 0xFE
def EXT_PLAINTEXT_LABEL : Nat := 0x01
def EXT_APPLICATION_LABEL : Nat := 0xFF
def TRAILER_LABEL : Nat := 0x3B
def IMAGE_SEPARATOR : Nat := 0x2C

/-- ASCII bytes of the string "GIF". -/
def SIG_GIF : List Nat := [0x47, 0x49, 0x46]

/-- ASCII bytes of the string "87a" (GIF_87a). -/
def VER_87a : List Nat := [0x38, 0x37, 0x61]

/-- ASCII bytes of the string "89a" (GIF_89a). -/
def VER_89a : List Nat := [0x38, 0x39, 0x61]

/-! ## Enums (from src/gifmeta/constants.py and gif.py) -/

inductive GifVersion where
  | GIF87a
  | GIF89a
deriving DecidableEq, Repr

inductive DisposalMethod where
  | NONE
  | NO_DISPOSE
  | RESTORE_BACKGROUND
  | RESTORE_PREVIOUS
deriving DecidableEq, Repr

/-- The Python enum constructor `DisposalMethod(v)`: returns the member with
value `v`, or raises `ValueError` (here: `none`) when `v` is not a member
value. Members are 0..3 only (constants.py lines 39-42). -/
def DisposalMethod.ofValue : Nat → Option DisposalMethod
  | 0 => some .NONE
  | 1 => some .NO_DISPOSE
  | 2 => some .RESTORE_BACKGROUND
  | 3 => some .RESTORE_PREVIOUS
  | _ => none

/-- Internal block type enum `_BlockType` (gif.py lines 213-223). The
leading underscore is dropped for Lean. -/
inductive BlockType where
  | IMAGE_DATA
  | EXT_GRAPHIC_CONTROL
  | EXT_COMMENT
  | EXT_PLAINTEXT
  | EXT_APPLICATION
  | EXT_UNKNOWN
  | TRAILER
deriving DecidableEq, Repr

/-! ## Errors

Each constructor corresponds to one raise site in the source (or to a
runtime error the Python interpreter itself would raise there). -/

inductive GifError where
  /-- GifStreamException "Bad signature ..." (consume_header). -/
  | badSignature
  /-- GifStreamException "Invalid GIF version ..." (consume_header). -/
  | badVersion
  /-- GifStreamException "could not read image descriptor: bad separator"
  (consume_image_descriptor), carrying the observed byte. -/
  | badSeparator (b : Nat)
  /-- GifStreamException "Unexpected end of file while checking next block
  type" (check_blocktype). -/
  | truncationAtBlocktype
  /-- GifStreamException "fatal: Unknown block with signature b0 b1"
  (check_blocktype), carrying both observed bytes. -/
  | unknownBlock (b0 b1 : Nat)
  /-- GifStreamException "Unexpected byte ... while trying to skip
  extension!" (skip_extension), carrying the observed byte. -/
  | badExtIntroducer (b : Nat)
  /-- GifStreamException "Bad signature in graphic control extension!"
  (consume_graphic_control_extension). -/
  | badGceSignature
  /-- Plain Exception "Two graphic control blocks for one image!"
  (Gif.__parse_metadata). -/
  | duplicateControl
  /-- Plain Exception "Unexpected blocktype returned!"
  (Gif.__parse_metadata, fallback branch). -/
  | unexpectedBlocktype
  /-- Python ValueError raised by the enum constructor DisposalMethod(v)
  for a non-member value v (consume_graphic_control_extension). -/
  | disposalValueError (v : Nat)
  /-- Python IndexError from indexing an empty peek result
  (check_blocktype, signature[0] when 0 bytes remain). -/
  | indexError
  /-- Short read reported by the byte cursor: fewer bytes available than a
  fixed-width read requires. -/
  | shortRead
  /-- Artifact of the fuel-indexed embedding of the dispatch loop; the
  source's loop has no such outcome (see `parse_loop`). -/
  | fuelOut
deriving DecidableEq, Repr

deriving instance DecidableEq for Except

/-! ## The byte cursor

Modelled from the spec: the `MmapCursor` primitive of the external
`mmaputils` module is not part of this repository. Spec section 6 gives
its collaborator contract: "sequential fixed-width integer reads,
fixed-length raw-byte reads, fixed-length ASCII reads, an explicitly
settable/advanceable position, and scoped release — all operations
assumed to fail fast (short-read) rather than silently pad", with
little-endian byte order (gif.py line 232), and spec section 4.3 states
that the classifier's 2-byte `read` is a peek ("read-ahead, not
consume-and-discard irrecoverably"). ASCII reads are modelled as raw
byte lists compared numerically. -/

structure Cursor where
  data : List Nat
  position : Nat
  closed : Bool
deriving DecidableEq, Repr

/-- The bytes from the current position to the end of the mapping. -/
def Cursor.remaining (s : Cursor) : List Nat :=
  s.data.drop s.position

/-- Modelled from the spec: `read n` peeks up to `n` bytes at the current
position without advancing (spec 4.3: read-ahead, not consumed). At end
of data it returns however many bytes remain. -/
def Cursor.read (s : Cursor) (n : Nat) : List Nat :=
  s.remaining.take n

/-- `stream.position += n` (explicit position advancement). -/
def Cursor.advance (s : Cursor) (n : Nat) : Cursor :=
  { s with position := s.position + n }

/-- Modelled from the spec: a fixed-length raw-byte read that consumes
`n` bytes and fails fast on a short read. -/
def Cursor.next (s : Cursor) (n : Nat) : Except GifError (List Nat × Cursor) :=
  let bs := s.read n
  if bs.length = n then .ok (bs, s.advance n) else .error .shortRead

/-- `next_byte`: consume one byte, failing fast at end of data. -/
def Cursor.next_byte (s : Cursor) : Except GifError (Nat × Cursor) :=
  match s.remaining with
  | [] => .error .shortRead
  | b :: _ => .ok (b, s.advance 1)

/-- Little-endian value of a byte list. -/
def leValue : List Nat → Nat
  | [] => 0
  | b :: bs => b + 256 * leValue bs

/-- `next_int(n)`: consume `n` bytes, little-endian (gif.py line 232). -/
def Cursor.next_int (s : Cursor) (n : Nat) : Except GifError (Nat × Cursor) :=
  match s.next n with
  | .error e => .error e
  | .ok (bs, s1) => .ok (leValue bs, s1)

/-- `close`: release the underlying resource (gif.py lines 421-423). -/
def Cursor.close (s : Cursor) : Cursor :=
  { s with closed := true }

/-! ## Descriptor value types (gif.py classes) -/

/-- `LogicalScreenDescriptor` (gif.py lines 104-122). Field
`pixel_aspect` embeds the source's pixel-aspect-ratio byte. -/
structure LogicalScreenDescriptor where
  width : Nat
  height : Nat
  colortable_exists : Bool
  color_resolution : Nat
  colortable_is_sorted : Bool
  colortable_size : Nat
  background_color_index : Nat
  pixel_aspect : Nat
deriving DecidableEq, Repr

/-- `LogicalScreenDescriptor.num_colors` (gif.py lines 121-122). -/
def LogicalScreenDescriptor.num_colors (d : LogicalScreenDescriptor) : Nat :=
  2 ^ (d.colortable_size + 1)

/-- `ImageDescriptor` (gif.py lines 139-159).

The Python class declares `self.interlace` in `__init__` (line 151) and
never assigns it again; `consume_image_descriptor` (line 315) assigns a
*different*, dynamically created attribute `self.interlaced`. The
embedding therefore carries both fields: `interlace` as declared by the
class, and `interlaced` as written by the parser (initialised `false`
here, standing for "attribute absent before the parser's assignment"). -/
structure ImageDescriptor where
  leftpos : Nat
  toppos : Nat
  width : Nat
  height : Nat
  interlace : Bool
  interlaced : Bool
  colortable_exists : Bool
  colortable_is_sorted : Bool
  colortable_size : Nat
deriving DecidableEq, Repr

/-- `ImageDescriptor.num_colors` (gif.py lines 158-159). -/
def ImageDescriptor.num_colors (d : ImageDescriptor) : Nat :=
  2 ^ (d.colortable_size + 1)

/-- `GraphicControlExtension` (gif.py lines 175-191). -/
structure GraphicControlExtension where
  disposal_method : DisposalMethod
  user_input_flag : Bool
  transparent_flag : Bool
  transparent_color : Nat
  delay : Nat
deriving DecidableEq, Repr

/-- `GraphicControlExtension.delay_ms` (gif.py lines 190-191). -/
def GraphicControlExtension.delay_ms (e : GraphicControlExtension) : Nat :=
  e.delay * 10

/-- A color table: ordered RGB triples (gif.py line 18). -/
abbrev Colortable := List (Nat × Nat × Nat)

/-! ## Stream consumers (`_GifStream` methods, gif.py lines 226-423) -/

/-- `consume_header` (gif.py lines 234-251): validate the 3-byte "GIF"
signature and the 3-byte version, returning the version enum. -/
def consume_header (s : Cursor) : Except GifError (GifVersion × Cursor) :=
  match s.next 3 with
  | .error e => .error e
  | .ok (signature, s1) =>
    if signature ≠ SIG_GIF then .error .badSignature
    else
      match s1.next 3 with
      | .error e => .error e
      | .ok (version, s2) =>
        if version = VER_87a then .ok (.GIF87a, s2)
        else if version = VER_89a then .ok (.GIF89a, s2)
        else .error .badVersion

/-- `consume_screen_descriptor` (gif.py lines 253-273). -/
def consume_screen_descriptor (s : Cursor) :
    Except GifError (LogicalScreenDescriptor × Cursor) :=
  match s.next_int 2 with
  | .error e => .error e
  | .ok (width, s1) =>
  match s1.next_int 2 with
  | .error e => .error e
  | .ok (height, s2) =>
  match s2.next_byte with
  | .error e => .error e
  | .ok (packed_fields, s3) =>
  match s3.next_byte with
  | .error e => .error e
  | .ok (bg, s4) =>
  match s4.next_byte with
  | .error e => .error e
  | .ok (par, s5) =>
    .ok ({ width := width
           height := height
           colortable_size := packed_fields &&& 0x7
           colortable_is_sorted := (packed_fields >>> 3) &&& 0x1 ≠ 0
           color_resolution := (packed_fields >>> 4) &&& 0x7
           colortable_exists := (packed_fields >>> 7) &&& 0x1 ≠ 0
           background_color_index := bg
           pixel_aspect := par }, s5)

/-- `consume_color_table` (gif.py lines 275-287): read `num_colors` RGB
triples in file order. -/
def consume_color_table (s : Cursor) : Nat → Except GifError (Colortable × Cursor)
  | 0 => .ok ([], s)
  | n + 1 =>
    match s.next 3 with
    | .error e => .error e
    | .ok (bs, s1) =>
      match consume_color_table s1 n with
      | .error e => .error e
      | .ok (rest, s2) =>
        .ok ((bs.headD 0, (bs.drop 1).headD 0, (bs.drop 2).headD 0) :: rest, s2)

/-- `consume_image_descriptor` (gif.py lines 291-318). Note line 315
assigns the attribute `interlaced`, not the declared field `interlace`. -/
def consume_image_descriptor (s : Cursor) :
    Except GifError (ImageDescriptor × Cursor) :=
  match s.next_byte with
  | .error e => .error e
  | .ok (separator, s1) =>
    if separator ≠ IMAGE_SEPARATOR then .error (.badSeparator separator)
    else
      match s1.next_int 2 with
      | .error e => .error e
      | .ok (leftpos, s2) =>
      match s2.next_int 2 with
      | .error e => .error e
      | .ok (toppos, s3) =>
      match s3.next_int 2 with
      | .error e => .error e
      | .ok (width, s4) =>
      match s4.next_int 2 with
      | .error e => .error e
      | .ok (height, s5) =>
      match s5.next_byte with
      | .error e => .error e
      | .ok (packed_fields, s6) =>
        .ok ({ leftpos := leftpos
               toppos := toppos
               width := width
               height := height
               interlace := false
               colortable_size := packed_fields &&& 0x7
               colortable_is_sorted := (packed_fields >>> 5) &&& 0x1 ≠ 0
               interlaced := (packed_fields >>> 6) &&& 0x1 ≠ 0
               colortable_exists := (packed_fields >>> 7) &&& 0x1 ≠ 0 }, s6)

/-- `check_blocktype` (gif.py lines 320-344): peek two bytes and
classify the next block; consumes nothing. Indexing `signature[0]` on an
empty peek result is the Python IndexError, embedded as
`GifError.indexError`. -/
def check_blocktype (s : Cursor) : Except GifError BlockType :=
  match s.read 2 with
  | [] => .error .indexError
  | [b0] =>
    if b0 = TRAILER_LABEL then .ok .TRAILER
    else .error .truncationAtBlocktype
  | b0 :: b1 :: _ =>
    if b0 = TRAILER_LABEL then .ok .TRAILER
    else if b0 = IMAGE_SEPARATOR then .ok .IMAGE_DATA
    else if b0 = EXT_INTRODUCER then
      if b1 = EXT_GRAPHIC_CONTROL_LABEL then .ok .EXT_GRAPHIC_CONTROL
      else .ok .EXT_UNKNOWN
    else .error (.unknownBlock b0 b1)

/-- The `while data_size != 0` loop of `skip_data` (gif.py lines
361-364), entered with the current `data_size` and running total. -/
def skip_data_loop (s : Cursor) (data_size total : Nat) :
    Except GifError (Nat × Cursor) :=
  if data_size = 0 then .ok (total, s)
  else
    match h : (s.advance data_size).next_byte with
    | .error e => .error e
    | .ok (b, s2) => skip_data_loop s2 b (total + b)
termination_by s.data.length - s.position
decreasing_by
  simp only [Cursor.next_byte, Cursor.advance, Cursor.remaining] at h
  cases hd : List.drop (s.position + data_size) s.data with
  | nil =>
    rw [hd] at h
    exact absurd h (by simp)
  | cons x xs =>
    rw [hd] at h
    simp only [Except.ok.injEq, Prod.mk.injEq] at h
    obtain ⟨-, h2⟩ := h
    have hlt : s.position + data_size < s.data.length := by
      by_contra hge
      rw [List.drop_eq_nil_of_le (by omega)] at hd
      exact List.noConfusion hd
    subst h2
    simp only []
    omega

/-- `skip_data` (gif.py lines 346-366): skip a chain of length-prefixed
sub-blocks, returning the number of payload bytes skipped (the sum of
the length bytes, the terminating zero included as zero). -/
def skip_data (s : Cursor) : Except GifError (Nat × Cursor) :=
  match s.next_byte with
  | .error e => .error e
  | .ok (data_size, s1) => skip_data_loop s1 data_size data_size

/-- `skip_image_data` (gif.py lines 368-375): skip the LZW minimum code
size byte, then the sub-block chain. -/
def skip_image_data (s : Cursor) : Except GifError (Nat × Cursor) :=
  skip_data (s.advance 1)

/-- `skip_extension` (gif.py lines 377-393): validate the extension
introducer, skip the label byte, then skip the sub-block chain. -/
def skip_extension (s : Cursor) : Except GifError (Nat × Cursor) :=
  match s.next_byte with
  | .error e => .error e
  | .ok (introducer, s1) =>
    if introducer ≠ EXT_INTRODUCER then .error (.badExtIntroducer introducer)
    else skip_data (s1.advance 1)

/-- `consume_graphic_control_extension` (gif.py lines 395-419). The
final `DisposalMethod(...)` call raises ValueError for codes outside
0..3. -/
def consume_graphic_control_extension (s : Cursor) :
    Except GifError (GraphicControlExtension × Cursor) :=
  match s.next 2 with
  | .error e => .error e
  | .ok (signature, s1) =>
    if signature ≠ [EXT_INTRODUCER, EXT_GRAPHIC_CONTROL_LABEL] then
      .error .badGceSignature
    else
      match (s1.advance 1).next_byte with
      | .error e => .error e
      | .ok (packed_fields, s2) =>
      match s2.next_int 2 with
      | .error e => .error e
      | .ok (delay, s3) =>
      match s3.next_byte with
      | .error e => .error e
      | .ok (tcolor, s4) =>
        match DisposalMethod.ofValue ((packed_fields >>> 2) &&& 0x7) with
        | none => .error (.disposalValueError ((packed_fields >>> 2) &&& 0x7))
        | some dm =>
          .ok ({ disposal_method := dm
                 user_input_flag := (packed_fields >>> 1) &&& 0x1 ≠ 0
                 transparent_flag := packed_fields &&& 0x1 ≠ 0
                 transparent_color := tcolor
                 delay := delay }, s4.advance 1)

/-! ## Aggregate parser (`Gif`, `GifImage`, gif.py lines 426-549) -/

/-- `GifImage` (gif.py lines 509-536): per-frame metadata. -/
structure GifImage where
  graphic_control : Option GraphicControlExtension
  colortable : Option Colortable
  image_descriptor : ImageDescriptor
  image_data_size : Nat
deriving DecidableEq, Repr

/-- `GifImage.__parse_metadata` (gif.py lines 529-536): image descriptor,
optional local color table, then skip image data. -/
def parse_gif_image (s : Cursor) (gc : Option GraphicControlExtension) :
    Except GifError (GifImage × Cursor) :=
  match consume_image_descriptor s with
  | .error e => .error e
  | .ok (desc, s1) =>
    if desc.colortable_exists then
      match consume_color_table s1 desc.num_colors with
      | .error e => .error e
      | .ok (ct, s2) =>
        match skip_image_data s2 with
        | .error e => .error e
        | .ok (sz, s3) =>
          .ok ({ graphic_control := gc
                 colortable := some ct
                 image_descriptor := desc
                 image_data_size := sz }, s3)
    else
      match skip_image_data s1 with
      | .error e => .error e
      | .ok (sz, s3) =>
        .ok ({ graphic_control := gc
               colortable := none
               image_descriptor := desc
               image_data_size := sz }, s3)

/-- The `while True` dispatch loop of `Gif.__parse_metadata` (gif.py
lines 470-487), embedded with a fuel parameter. Each loop iteration of
the source advances the cursor by at least one byte or raises, so the
fuel supplied by `parse_metadata` (data length + 1) can never run out;
`GifError.fuelOut` is an artifact of the embedding, not a behavior of
the source. -/
def parse_loop : Nat → Cursor → Option GraphicControlExtension → List GifImage →
    Except GifError (List GifImage × Cursor)
  | 0, _, _, _ => .error .fuelOut
  | fuel + 1, s, gc, images =>
    match check_blocktype s with
    | .error e => .error e
    | .ok .TRAILER => .ok (images, s)
    | .ok .EXT_GRAPHIC_CONTROL =>
      match gc with
      | some _ => .error .duplicateControl
      | none =>
        match consume_graphic_control_extension s with
        | .error e => .error e
        | .ok (g, s1) => parse_loop fuel s1 (some g) images
    | .ok .IMAGE_DATA =>
      match parse_gif_image s gc with
      | .error e => .error e
      | .ok (img, s1) => parse_loop fuel s1 none (images ++ [img])
    | .ok .EXT_UNKNOWN =>
      match skip_extension s with
      | .error e => .error e
      | .ok (_, s1) => parse_loop fuel s1 gc images
    | .ok _ => .error .unexpectedBlocktype

/-- `Gif` (gif.py lines 426-443): the root aggregate. -/
structure Gif where
  version : GifVersion
  colortable : Option Colortable
  logical_screen_descriptor : LogicalScreenDescriptor
  images : List GifImage
deriving DecidableEq, Repr

/-- The outcome of one run of `Gif.__parse_metadata`: the produced
aggregate or the propagated error, the advisory warnings printed, and
whether `gifstream.close()` was reached. -/
structure ParseOutcome where
  result : Except GifError Gif
  warnings : List String
  closed : Bool
deriving DecidableEq, Repr

/-- `Gif.__parse_metadata` (gif.py lines 449-491), over the raw bytes of
the file. `gifstream.close()` (line 491) is the last statement of the
method and runs only when every prior step succeeded; an exception
raised earlier propagates without reaching it, so `closed` is `false`
on every error outcome. The advisory print (line 460) happens before
the dispatch loop, so it is recorded even when the loop later fails. -/
def parse_metadata (data : List Nat) : ParseOutcome :=
  let s0 : Cursor := { data := data, position := 0, closed := false }
  match consume_header s0 with
  | .error e => { result := .error e, warnings := [], closed := false }
  | .ok (version, s1) =>
  match consume_screen_descriptor s1 with
  | .error e => { result := .error e, warnings := [], closed := false }
  | .ok (lsd, s2) =>
    if lsd.colortable_exists then
      match consume_color_table s2 lsd.num_colors with
      | .error e => { result := .error e, warnings := [], closed := false }
      | .ok (ct, s3) =>
        match parse_loop (data.length + 1) s3 none [] with
        | .error e => { result := .error e, warnings := [], closed := false }
        | .ok (images, s4) =>
          { result := .ok { version := version
                            colortable := some ct
                            logical_screen_descriptor := lsd
                            images := images }
            warnings := []
            closed := (Cursor.close s4).closed }
    else
      match parse_loop (data.length + 1) s2 none [] with
      | .error e =>
        { result := .error e
          warnings := ["warning: no global color table"]
          closed := false }
      | .ok (images, s4) =>
        { result := .ok { version := version
                          colortable := none
                          logical_screen_descriptor := lsd
                          images := images }
          warnings := ["warning: no global color table"]
          closed := (Cursor.close s4).closed }

/-! ## Sub-block chains and synthetic files

To state file-level properties (round-trip, payload noninterference,
duplicate-control failure) we describe well-formed inputs by a
structured source type and encode it to raw bytes exactly as the format
table in spec section 6 lays them out. These definitions describe
*inputs*; the parser above never consults them. -/

/-- Byte encoding of a sub-block chain: each chunk is preceded by its
length byte, and the chain ends with the 0 length byte (spec 6:
"Sub-block: length byte L, then L data bytes, chained until L=0"). -/
def encodeChain : List (List Nat) → List Nat
  | [] => [0]
  | c :: cs => c.length :: (c ++ encodeChain cs)

/-- The sum of the length bytes of a chain (excluding the final 0). -/
def sumLens (cs : List (List Nat)) : Nat :=
  (cs.map List.length).sum

/-- Raw source fields of a graphic control extension block. -/
structure GceSrc where
  blocksize : Nat
  packed : Nat
  d0 : Nat
  d1 : Nat
  tcolor : Nat
  terminator : Nat
deriving DecidableEq, Repr

/-- The 8 bytes of a graphic control extension block. -/
def GceSrc.encode (g : GceSrc) : List Nat :=
  [EXT_INTRODUCER, EXT_GRAPHIC_CONTROL_LABEL, g.blocksize, g.packed,
   g.d0, g.d1, g.tcolor, g.terminator]

/-- The disposal-method code carried in bits 2-4 of the packed byte. -/
def GceSrc.disposal (g : GceSrc) : Nat :=
  (g.packed >>> 2) &&& 0x7

/-- The extension value the parser produces from these bytes. -/
def GceSrc.interp (g : GceSrc) : GraphicControlExtension :=
  { disposal_method := (DisposalMethod.ofValue g.disposal).getD .NONE
    user_input_flag := (g.packed >>> 1) &&& 0x1 ≠ 0
    transparent_flag := g.packed &&& 0x1 ≠ 0
    transparent_color := g.tcolor
    delay := g.d0 + 256 * g.d1 }

/-- Group raw color-table bytes into RGB triples in file order. -/
def groupRGB : List Nat → Colortable
  | r :: g :: b :: rest => (r, g, b) :: groupRGB rest
  | _ => []

/-- Raw source fields of an image block: descriptor bytes, local color
table bytes, LZW minimum-code-size byte, and the pixel data chunks. -/
structure ImgSrc where
  l0 : Nat
  l1 : Nat
  t0 : Nat
  t1 : Nat
  w0 : Nat
  w1 : Nat
  h0 : Nat
  h1 : Nat
  packed : Nat
  table : List Nat
  lzw : Nat
  chunks : List (List Nat)
deriving DecidableEq, Repr

/-- Byte encoding of an image block (spec 6: separator, left, top,
width, height, packed, then the local table if present, then image
data). -/
def ImgSrc.encode (i : ImgSrc) : List Nat :=
  IMAGE_SEPARATOR :: [i.l0, i.l1, i.t0, i.t1, i.w0, i.w1, i.h0, i.h1, i.packed]
    ++ i.table ++ i.lzw :: encodeChain i.chunks

/-- The descriptor the parser produces from these bytes (note: the
`interlace` field stays at its `__init__` value, the parser writes the
stray attribute `interlaced`). -/
def ImgSrc.descriptor (i : ImgSrc) : ImageDescriptor :=
  { leftpos := i.l0 + 256 * i.l1
    toppos := i.t0 + 256 * i.t1
    width := i.w0 + 256 * i.w1
    height := i.h0 + 256 * i.h1
    interlace := false
    interlaced := (i.packed >>> 6) &&& 0x1 ≠ 0
    colortable_exists := (i.packed >>> 7) &&& 0x1 ≠ 0
    colortable_is_sorted := (i.packed >>> 5) &&& 0x1 ≠ 0
    colortable_size := i.packed &&& 0x7 }

/-- The frame the parser produces from these bytes. -/
def ImgSrc.interp (i : ImgSrc) (gc : Option GraphicControlExtension) : GifImage :=
  { graphic_control := gc
    colortable :=
      if (i.packed >>> 7) &&& 0x1 ≠ 0 then some (groupRGB i.table) else none
    image_descriptor := i.descriptor
    image_data_size := sumLens i.chunks }

/-- Well-formed image source: the local table's raw length matches the
size code when the table-present bit is set (and is empty otherwise),
and no chunk of the pixel-data chain is empty (an empty chunk would be
the chain terminator). -/
def ImgSrc.wf (i : ImgSrc) : Prop :=
  ((i.packed >>> 7) &&& 0x1 ≠ 0 → i.table.length = 3 * 2 ^ ((i.packed &&& 0x7) + 1))
  ∧ ((i.packed >>> 7) &&& 0x1 = 0 → i.table = [])
  ∧ ∀ c ∈ i.chunks, c ≠ []

/-- A block of the body of a synthetic file. -/
inductive BlockSrc where
  | gce (g : GceSrc)
  | image (i : ImgSrc)
  | ext (label : Nat) (chunks : List (List Nat))
deriving DecidableEq, Repr

/-- Byte encoding of one block. -/
def BlockSrc.encode : BlockSrc → List Nat
  | .gce g => g.encode
  | .image i => i.encode
  | .ext label chunks => EXT_INTRODUCER :: label :: encodeChain chunks

/-- Well-formed block: graphic control blocks carry a decodable disposal
code, generic extensions are not labelled as graphic control, and chain
chunks are nonempty. -/
def BlockSrc.wf : BlockSrc → Prop
  | .gce g => g.disposal < 4
  | .image i => i.wf
  | .ext label chunks => label ≠ EXT_GRAPHIC_CONTROL_LABEL ∧ ∀ c ∈ chunks, c ≠ []

/-- Byte encoding of a block sequence. -/
def encodeBlocks (bs : List BlockSrc) : List Nat :=
  (bs.map BlockSrc.encode).flatten

/-- The duplicate-control discipline of the dispatch loop: no graphic
control block may occur while one is already pending; an image block
clears the pending value. The boolean argument is whether a value is
pending on entry. -/
def blocksOk : Bool → List BlockSrc → Prop
  | _, [] => True
  | pending, .gce _ :: bs => pending = false ∧ blocksOk true bs
  | _, .image _ :: bs => blocksOk false bs
  | pending, .ext _ _ :: bs => blocksOk pending bs

/-- The frames the dispatch loop produces from a block sequence, given
the pending graphic control value on entry. -/
def interpBlocks (gc : Option GraphicControlExtension) :
    List BlockSrc → List GifImage
  | [] => []
  | .gce g :: bs => interpBlocks (some g.interp) bs
  | .image i :: bs => i.interp gc :: interpBlocks none bs
  | .ext _ _ :: bs => interpBlocks gc bs

/-- Raw source fields of a whole file: version bytes, the seven screen
descriptor bytes, global color table bytes, and the body blocks. The
trailer byte is appended by `GifSrc.encode`. -/
structure GifSrc where
  version : List Nat
  w0 : Nat
  w1 : Nat
  h0 : Nat
  h1 : Nat
  spacked : Nat
  sbg : Nat
  spar : Nat
  gtable : List Nat
  blocks : List BlockSrc
deriving DecidableEq, Repr

/-- Byte encoding of the whole file. -/
def GifSrc.encode (g : GifSrc) : List Nat :=
  SIG_GIF ++ g.version
    ++ [g.w0, g.w1, g.h0, g.h1, g.spacked, g.sbg, g.spar]
    ++ g.gtable ++ encodeBlocks g.blocks ++ [TRAILER_LABEL]

/-- The screen descriptor the parser produces from these bytes. -/
def GifSrc.lsd (g : GifSrc) : LogicalScreenDescriptor :=
  { width := g.w0 + 256 * g.w1
    height := g.h0 + 256 * g.h1
    colortable_size := g.spacked &&& 0x7
    colortable_is_sorted := (g.spacked >>> 3) &&& 0x1 ≠ 0
    color_resolution := (g.spacked >>> 4) &&& 0x7
    colortable_exists := (g.spacked >>> 7) &&& 0x1 ≠ 0
    background_color_index := g.sbg
    pixel_aspect := g.spar }

/-- The version enum the parser produces. -/
def GifSrc.interpVersion (g : GifSrc) : GifVersion :=
  if g.version = VER_87a then .GIF87a else .GIF89a

/-- The root aggregate the parser produces from a well-formed file. -/
def GifSrc.interp (g : GifSrc) : Gif :=
  { version := g.interpVersion
    colortable :=
      if (g.spacked >>> 7) &&& 0x1 ≠ 0 then some (groupRGB g.gtable) else none
    logical_screen_descriptor := g.lsd
    images := interpBlocks none g.blocks }

/-- Well-formed file: valid version, global table length matching the
size code (empty when absent), well-formed blocks obeying the
duplicate-control discipline. -/
def GifSrc.wf (g : GifSrc) : Prop :=
  (g.version = VER_87a ∨ g.version = VER_89a)
  ∧ ((g.spacked >>> 7) &&& 0x1 ≠ 0 →
      g.gtable.length = 3 * 2 ^ ((g.spacked &&& 0x7) + 1))
  ∧ ((g.spacked >>> 7) &&& 0x1 = 0 → g.gtable = [])
  ∧ (∀ b ∈ g.blocks, b.wf)
  ∧ blocksOk false g.blocks

/-! ### Shape equality: same bytes everywhere except sub-block payloads -/

/-- Two image sources identical except for the payload bytes of their
pixel-data chains: every field equal, and the chains have the same
length bytes in the same positions. -/
def ImgSrc.shapeEq (i j : ImgSrc) : Prop :=
  i.l0 = j.l0 ∧ i.l1 = j.l1 ∧ i.t0 = j.t0 ∧ i.t1 = j.t1
  ∧ i.w0 = j.w0 ∧ i.w1 = j.w1 ∧ i.h0 = j.h0 ∧ i.h1 = j.h1
  ∧ i.packed = j.packed ∧ i.table = j.table ∧ i.lzw = j.lzw
  ∧ i.chunks.map List.length = j.chunks.map List.length

/-- Two blocks identical except for sub-block payload bytes. -/
def BlockSrc.shapeEq : BlockSrc → BlockSrc → Prop
  | .gce g, .gce h => g = h
  | .image i, .image j => i.shapeEq j
  | .ext l c, .ext m d => l = m ∧ c.map List.length = d.map List.length
  | _, _ => False

/-- Two files identical except for the payload bytes inside sub-block
data chains: same length bytes at the same positions, same bytes
everywhere else. -/
def GifSrc.shapeEq (g h : GifSrc) : Prop :=
  g.version = h.version ∧ g.w0 = h.w0 ∧ g.w1 = h.w1 ∧ g.h0 = h.h0
  ∧ g.h1 = h.h1 ∧ g.spacked = h.spacked ∧ g.sbg = h.sbg ∧ g.spar = h.spar
  ∧ g.gtable = h.gtable ∧ List.Forall₂ BlockSrc.shapeEq g.blocks h.blocks

/-- The pending graphic-control value after the dispatch loop has
processed a block sequence, starting from `gc`: a graphic control block
stores its value, an image block consumes it, other extensions leave it
alone (gif.py lines 475-485). -/
def pendingAfter (gc : Option GraphicControlExtension) :
    List BlockSrc → Option GraphicControlExtension
  | [] => gc
  | .gce g :: bs => pendingAfter (some g.interp) bs
  | .image _ :: bs => pendingAfter none bs
  | .ext _ _ :: bs => pendingAfter gc bs

/-! ## Cursor lemmas -/

theorem Cursor.advance_advance (s : Cursor) (m n : Nat) :
    (s.advance m).advance n = s.advance (m + n) := by
  simp [Cursor.advance, Nat.add_assoc]

theorem Cursor.remaining_advance (s : Cursor) (n : Nat) :
    (s.advance n).remaining = s.remaining.drop n := by
  simp [Cursor.advance, Cursor.remaining, List.drop_drop, Nat.add_comm]

theorem Cursor.data_advance (s : Cursor) (n : Nat) :
    (s.advance n).data = s.data := rfl

theorem Cursor.next_byte_cons (s : Cursor) (b : Nat) (rest : List Nat)
    (h : s.remaining = b :: rest) :
    s.next_byte = .ok (b, s.advance 1) := by
  simp [Cursor.next_byte, h]

theorem Cursor.next_eq_of_remaining (s : Cursor) (n : Nat) (bs rest : List Nat)
    (h : s.remaining = bs ++ rest) (hlen : bs.length = n) :
    s.next n = .ok (bs, s.advance n) := by
  subst hlen
  simp [Cursor.next, Cursor.read, h, List.take_left]

theorem Cursor.next_int2_eq (s : Cursor) (b0 b1 : Nat) (rest : List Nat)
    (h : s.remaining = b0 :: b1 :: rest) :
    s.next_int 2 = .ok (b0 + 256 * b1, s.advance 2) := by
  have h2 : s.next 2 = .ok ([b0, b1], s.advance 2) :=
    s.next_eq_of_remaining 2 [b0, b1] rest (by simpa using h) rfl
  simp [Cursor.next_int, h2, leValue]

/-! ## Consumer characterizations on explicitly shaped streams -/

theorem consume_header_eq (s : Cursor) (v rest : List Nat)
    (h : s.remaining = SIG_GIF ++ (v ++ rest))
    (hv : v = VER_87a ∨ v = VER_89a) :
    consume_header s
      = .ok (if v = VER_87a then .GIF87a else .GIF89a, s.advance 6) := by
  have h3 : s.next 3 = .ok (SIG_GIF, s.advance 3) :=
    s.next_eq_of_remaining 3 SIG_GIF (v ++ rest) h rfl
  have hrem : (s.advance 3).remaining = v ++ rest := by
    rw [Cursor.remaining_advance, h]
    simp [SIG_GIF]
  rcases hv with hv | hv
  · subst hv
    have h3' : (s.advance 3).next 3 = .ok (VER_87a, (s.advance 3).advance 3) :=
      (s.advance 3).next_eq_of_remaining 3 VER_87a rest hrem rfl
    rw [Cursor.advance_advance] at h3'
    simp [consume_header, h3, h3', SIG_GIF, VER_87a]
  · subst hv
    have h3' : (s.advance 3).next 3 = .ok (VER_89a, (s.advance 3).advance 3) :=
      (s.advance 3).next_eq_of_remaining 3 VER_89a rest hrem rfl
    rw [Cursor.advance_advance] at h3'
    simp [consume_header, h3, h3', SIG_GIF, VER_87a, VER_89a]

theorem consume_screen_descriptor_eq (s : Cursor)
    (b0 b1 b2 b3 p bg par : Nat) (rest : List Nat)
    (h : s.remaining = b0 :: b1 :: b2 :: b3 :: p :: bg :: par :: rest) :
    consume_screen_descriptor s
      = .ok ({ width := b0 + 256 * b1
               height := b2 + 256 * b3
               colortable_size := p &&& 0x7
               colortable_is_sorted := (p >>> 3) &&& 0x1 ≠ 0
               color_resolution := (p >>> 4) &&& 0x7
               colortable_exists := (p >>> 7) &&& 0x1 ≠ 0
               background_color_index := bg
               pixel_aspect := par }, s.advance 7) := by
  have e1 : s.next_int 2 = .ok (b0 + 256 * b1, s.advance 2) :=
    s.next_int2_eq b0 b1 _ h
  have r1 : (s.advance 2).remaining = b2 :: b3 :: p :: bg :: par :: rest := by
    rw [Cursor.remaining_advance, h]
    rfl
  have e2 : (s.advance 2).next_int 2 = .ok (b2 + 256 * b3, s.advance 4) := by
    have := (s.advance 2).next_int2_eq b2 b3 _ r1
    rwa [Cursor.advance_advance] at this
  have r2 : (s.advance 4).remaining = p :: bg :: par :: rest := by
    rw [Cursor.remaining_advance, h]
    rfl
  have e3 : (s.advance 4).next_byte = .ok (p, s.advance 5) := by
    have := (s.advance 4).next_byte_cons p _ r2
    rwa [Cursor.advance_advance] at this
  have r3 : (s.advance 5).remaining = bg :: par :: rest := by
    rw [Cursor.remaining_advance, h]
    rfl
  have e4 : (s.advance 5).next_byte = .ok (bg, s.advance 6) := by
    have := (s.advance 5).next_byte_cons bg _ r3
    rwa [Cursor.advance_advance] at this
  have r4 : (s.advance 6).remaining = par :: rest := by
    rw [Cursor.remaining_advance, h]
    rfl
  have e5 : (s.advance 6).next_byte = .ok (par, s.advance 7) := by
    have := (s.advance 6).next_byte_cons par _ r4
    rwa [Cursor.advance_advance] at this
  simp [consume_screen_descriptor, e1, e2, e3, e4, e5]

theorem consume_color_table_eq :
    ∀ (n : Nat) (s : Cursor) (raw rest : List Nat),
      s.remaining = raw ++ rest → raw.length = 3 * n →
      consume_color_table s n = .ok (groupRGB raw, s.advance (3 * n)) := by
  intro n
  induction n with
  | zero =>
    intro s raw rest h hlen
    have : raw = [] := List.eq_nil_of_length_eq_zero (by omega)
    subst this
    simp [consume_color_table, groupRGB, Cursor.advance]
  | succ n ih =>
    intro s raw rest h hlen
    match raw, hlen with
    | r :: g :: b :: raw', hlen =>
      have h3 : s.next 3 = .ok ([r, g, b], s.advance 3) := by
        apply s.next_eq_of_remaining 3 [r, g, b] (raw' ++ rest) _ rfl
        simpa using h
      have hrem : (s.advance 3).remaining = raw' ++ rest := by
        rw [Cursor.remaining_advance, h]
        rfl
      have hlen' : raw'.length = 3 * n := by
        simp at hlen
        omega
      have ihh := ih (s.advance 3) raw' rest hrem hlen'
      rw [Cursor.advance_advance] at ihh
      have hadd : 3 + 3 * n = 3 * (n + 1) := by ring
      rw [hadd] at ihh
      simp [consume_color_table, h3, ihh, groupRGB]

theorem consume_color_table_length :
    ∀ (n : Nat) (s s' : Cursor) (ct : Colortable),
      consume_color_table s n = .ok (ct, s') → ct.length = n := by
  intro n
  induction n with
  | zero =>
    intro s s' ct h
    simp [consume_color_table] at h
    simp [h.1]
  | succ n ih =>
    intro s s' ct h
    simp only [consume_color_table] at h
    match e1 : s.next 3 with
    | .error e => rw [e1] at h; exact absurd h (by simp)
    | .ok (bs, s1) =>
      rw [e1] at h
      dsimp only at h
      match e2 : consume_color_table s1 n with
      | .error e => rw [e2] at h; exact absurd h (by simp)
      | .ok (rest, s2) =>
        rw [e2] at h
        dsimp only at h
        simp only [Except.ok.injEq, Prod.mk.injEq] at h
        obtain ⟨h3, -⟩ := h
        rw [← h3]
        simp [ih s1 s2 rest e2]

theorem consume_image_descriptor_eq (s : Cursor)
    (l0 l1 t0 t1 w0 w1 h0 h1 p : Nat) (rest : List Nat)
    (h : s.remaining
      = IMAGE_SEPARATOR :: l0 :: l1 :: t0 :: t1 :: w0 :: w1 :: h0 :: h1 :: p :: rest) :
    consume_image_descriptor s
      = .ok ({ leftpos := l0 + 256 * l1
               toppos := t0 + 256 * t1
               width := w0 + 256 * w1
               height := h0 + 256 * h1
               interlace := false
               interlaced := (p >>> 6) &&& 0x1 ≠ 0
               colortable_exists := (p >>> 7) &&& 0x1 ≠ 0
               colortable_is_sorted := (p >>> 5) &&& 0x1 ≠ 0
               colortable_size := p &&& 0x7 }, s.advance 10) := by
  have e0 : s.next_byte = .ok (IMAGE_SEPARATOR, s.advance 1) :=
    s.next_byte_cons IMAGE_SEPARATOR _ h
  have r0 : (s.advance 1).remaining
      = l0 :: l1 :: t0 :: t1 :: w0 :: w1 :: h0 :: h1 :: p :: rest := by
    rw [Cursor.remaining_advance, h]
    rfl
  have e1 : (s.advance 1).next_int 2 = .ok (l0 + 256 * l1, s.advance 3) := by
    have := (s.advance 1).next_int2_eq l0 l1 _ r0
    rwa [Cursor.advance_advance] at this
  have r1 : (s.advance 3).remaining = t0 :: t1 :: w0 :: w1 :: h0 :: h1 :: p :: rest := by
    rw [Cursor.remaining_advance, h]
    rfl
  have e2 : (s.advance 3).next_int 2 = .ok (t0 + 256 * t1, s.advance 5) := by
    have := (s.advance 3).next_int2_eq t0 t1 _ r1
    rwa [Cursor.advance_advance] at this
  have r2 : (s.advance 5).remaining = w0 :: w1 :: h0 :: h1 :: p :: rest := by
    rw [Cursor.remaining_advance, h]
    rfl
  have e3 : (s.advance 5).next_int 2 = .ok (w0 + 256 * w1, s.advance 7) := by
    have := (s.advance 5).next_int2_eq w0 w1 _ r2
    rwa [Cursor.advance_advance] at this
  have r3 : (s.advance 7).remaining = h0 :: h1 :: p :: rest := by
    rw [Cursor.remaining_advance, h]
    rfl
  have e4 : (s.advance 7).next_int 2 = .ok (h0 + 256 * h1, s.advance 9) := by
    have := (s.advance 7).next_int2_eq h0 h1 _ r3
    rwa [Cursor.advance_advance] at this
  have r4 : (s.advance 9).remaining = p :: rest := by
    rw [Cursor.remaining_advance, h]
    rfl
  have e5 : (s.advance 9).next_byte = .ok (p, s.advance 10) := by
    have := (s.advance 9).next_byte_cons p _ r4
    rwa [Cursor.advance_advance] at this
  simp [consume_image_descriptor, e0, e1, e2, e3, e4, e5, IMAGE_SEPARATOR]

theorem check_blocktype_trailer (s : Cursor) (rest : List Nat)
    (h : s.remaining = TRAILER_LABEL :: rest) :
    check_blocktype s = .ok .TRAILER := by
  cases rest with
  | nil => simp [check_blocktype, Cursor.read, h, TRAILER_LABEL]
  | cons b rest' => simp [check_blocktype, Cursor.read, h, TRAILER_LABEL]

theorem check_blocktype_image (s : Cursor) (b : Nat) (rest : List Nat)
    (h : s.remaining = IMAGE_SEPARATOR :: b :: rest) :
    check_blocktype s = .ok .IMAGE_DATA := by
  simp [check_blocktype, Cursor.read, h, IMAGE_SEPARATOR, TRAILER_LABEL]

theorem check_blocktype_gce (s : Cursor) (rest : List Nat)
    (h : s.remaining = EXT_INTRODUCER :: EXT_GRAPHIC_CONTROL_LABEL :: rest) :
    check_blocktype s = .ok .EXT_GRAPHIC_CONTROL := by
  simp [check_blocktype, Cursor.read, h, EXT_INTRODUCER,
    EXT_GRAPHIC_CONTROL_LABEL, IMAGE_SEPARATOR, TRAILER_LABEL]

theorem check_blocktype_ext (s : Cursor) (label : Nat) (rest : List Nat)
    (h : s.remaining = EXT_INTRODUCER :: label :: rest)
    (hl : label ≠ EXT_GRAPHIC_CONTROL_LABEL) :
    check_blocktype s = .ok .EXT_UNKNOWN := by
  have hl' : label ≠ 249 := by simpa [EXT_GRAPHIC_CONTROL_LABEL] using hl
  simp [check_blocktype, Cursor.read, h, hl', EXT_INTRODUCER,
    EXT_GRAPHIC_CONTROL_LABEL, IMAGE_SEPARATOR, TRAILER_LABEL]

theorem check_blocktype_unknown (s : Cursor) (b0 b1 : Nat) (rest : List Nat)
    (h : s.remaining = b0 :: b1 :: rest)
    (h0 : b0 ≠ TRAILER_LABEL) (h1 : b0 ≠ IMAGE_SEPARATOR)
    (h2 : b0 ≠ EXT_INTRODUCER) :
    check_blocktype s = .error (.unknownBlock b0 b1) := by
  simp [check_blocktype, Cursor.read, h, h0, h1, h2]

theorem check_blocktype_short (s : Cursor) (b0 : Nat)
    (h : s.remaining = [b0]) (h0 : b0 ≠ TRAILER_LABEL) :
    check_blocktype s = .error .truncationAtBlocktype := by
  simp [check_blocktype, Cursor.read, h, h0]

theorem check_blocktype_empty (s : Cursor) (h : s.remaining = []) :
    check_blocktype s = .error .indexError := by
  simp [check_blocktype, Cursor.read, h]

theorem consume_graphic_control_extension_eq (s : Cursor) (g : GceSrc)
    (rest : List Nat) (h : s.remaining = g.encode ++ rest)
    (hd : g.disposal < 4) :
    consume_graphic_control_extension s = .ok (g.interp, s.advance 8) := by
  have hsig : s.next 2
      = .ok ([EXT_INTRODUCER, EXT_GRAPHIC_CONTROL_LABEL], s.advance 2) := by
    apply s.next_eq_of_remaining 2 [EXT_INTRODUCER, EXT_GRAPHIC_CONTROL_LABEL]
      (g.blocksize :: g.packed :: g.d0 :: g.d1 :: g.tcolor :: g.terminator :: rest) _ rfl
    simpa [GceSrc.encode] using h
  have r0 : (s.advance 3).remaining
      = g.packed :: g.d0 :: g.d1 :: g.tcolor :: g.terminator :: rest := by
    rw [Cursor.remaining_advance, h]
    simp [GceSrc.encode]
  have e0 : (s.advance 3).next_byte = .ok (g.packed, s.advance 4) := by
    have := (s.advance 3).next_byte_cons g.packed _ r0
    rwa [Cursor.advance_advance] at this
  have r1 : (s.advance 4).remaining = g.d0 :: g.d1 :: g.tcolor :: g.terminator :: rest := by
    rw [Cursor.remaining_advance, h]
    simp [GceSrc.encode]
  have e1 : (s.advance 4).next_int 2 = .ok (g.d0 + 256 * g.d1, s.advance 6) := by
    have := (s.advance 4).next_int2_eq g.d0 g.d1 _ r1
    rwa [Cursor.advance_advance] at this
  have r2 : (s.advance 6).remaining = g.tcolor :: g.terminator :: rest := by
    rw [Cursor.remaining_advance, h]
    simp [GceSrc.encode]
  have e2 : (s.advance 6).next_byte = .ok (g.tcolor, s.advance 7) := by
    have := (s.advance 6).next_byte_cons g.tcolor _ r2
    rwa [Cursor.advance_advance] at this
  have hdm : ∃ dm, DisposalMethod.ofValue g.disposal = some dm := by
    unfold GceSrc.disposal at hd ⊢
    interval_cases h : ((g.packed >>> 2) &&& 0x7) <;> simp [DisposalMethod.ofValue]
  obtain ⟨dm, hdm⟩ := hdm
  have hadv : (s.advance 2).advance 1 = s.advance 3 := by
    rw [Cursor.advance_advance]
  have hadv2 : (s.advance 7).advance 1 = s.advance 8 := by
    rw [Cursor.advance_advance]
  simp only [consume_graphic_control_extension, hsig, hadv, e0, e1, e2, hadv2,
    GceSrc.interp, GceSrc.disposal] at hdm ⊢
  simp [hdm]

/-! ## Sub-block chain skipping -/

theorem skip_data_loop_chain :
    ∀ (cs : List (List Nat)) (s : Cursor) (c : List Nat) (total : Nat)
      (rest : List Nat),
      c ≠ [] → (∀ d ∈ cs, d ≠ []) →
      s.remaining = c ++ encodeChain cs ++ rest →
      skip_data_loop s c.length total
        = .ok (total + sumLens cs,
               s.advance (c.length + (encodeChain cs).length)) := by
  intro cs
  induction cs with
  | nil =>
    intro s c total rest hc _ h
    have hcl : c.length ≠ 0 := by simpa using hc
    have r1 : (s.advance c.length).remaining = 0 :: rest := by
      rw [Cursor.remaining_advance, h]
      simp [encodeChain]
    have e1 : (s.advance c.length).next_byte
        = .ok (0, (s.advance c.length).advance 1) :=
      (s.advance c.length).next_byte_cons 0 rest r1
    rw [skip_data_loop, if_neg hcl]
    split
    case _ heq => rw [e1] at heq; cases heq
    case _ b s2 heq =>
      rw [e1] at heq
      cases heq
      rw [skip_data_loop]
      simp [sumLens, encodeChain, Cursor.advance_advance]
  | cons c' cs' ih =>
    intro s c total rest hc hcs h
    have hcl : c.length ≠ 0 := by simpa using hc
    have hc' : c' ≠ [] := hcs c' (by simp)
    have hcs' : ∀ d ∈ cs', d ≠ [] := fun d hd => hcs d (by simp [hd])
    have r1 : (s.advance c.length).remaining
        = c'.length :: (c' ++ encodeChain cs' ++ rest) := by
      rw [Cursor.remaining_advance, h]
      simp [encodeChain]
    have e1 : (s.advance c.length).next_byte
        = .ok (c'.length, (s.advance c.length).advance 1) :=
      (s.advance c.length).next_byte_cons c'.length _ r1
    rw [skip_data_loop, if_neg hcl]
    split
    case _ heq => rw [e1] at heq; cases heq
    case _ b s2 heq =>
      rw [e1] at heq
      cases heq
      have r2 : ((s.advance c.length).advance 1).remaining
          = c' ++ encodeChain cs' ++ rest := by
        rw [Cursor.advance_advance, Cursor.remaining_advance, h]
        have hsplit : c ++ encodeChain (c' :: cs') ++ rest
            = (c ++ [c'.length]) ++ (c' ++ encodeChain cs' ++ rest) := by
          simp [encodeChain]
        rw [hsplit, List.drop_left' (by simp)]
      rw [ih ((s.advance c.length).advance 1) c' (total + c'.length) rest hc' hcs' r2]
      rw [Cursor.advance_advance, Cursor.advance_advance]
      have hsum : total + c'.length + sumLens cs' = total + sumLens (c' :: cs') := by
        simp [sumLens]
        omega
      rw [hsum]
      have hlen : c.length + (1 + (c'.length + (encodeChain cs').length))
          = c.length + (encodeChain (c' :: cs')).length := by
        simp [encodeChain]
        omega
      rw [hlen]

theorem skip_data_chain (s : Cursor) (cs : List (List Nat)) (rest : List Nat)
    (hcs : ∀ d ∈ cs, d ≠ []) (h : s.remaining = encodeChain cs ++ rest) :
    skip_data s = .ok (sumLens cs, s.advance (encodeChain cs).length) := by
  cases cs with
  | nil =>
    have e1 : s.next_byte = .ok (0, s.advance 1) := by
      apply s.next_byte_cons 0 rest
      rw [h]
      simp [encodeChain]
    rw [skip_data]
    split
    case _ heq => rw [e1] at heq; cases heq
    case _ b s1 heq =>
      rw [e1] at heq
      cases heq
      rw [skip_data_loop]
      simp [sumLens, encodeChain]
  | cons c cs' =>
    have hc : c ≠ [] := hcs c (by simp)
    have hcs' : ∀ d ∈ cs', d ≠ [] := fun d hd => hcs d (by simp [hd])
    have e1 : s.next_byte = .ok (c.length, s.advance 1) := by
      apply s.next_byte_cons c.length (c ++ encodeChain cs' ++ rest)
      rw [h]
      simp [encodeChain]
    have r1 : (s.advance 1).remaining = c ++ encodeChain cs' ++ rest := by
      rw [Cursor.remaining_advance, h]
      simp [encodeChain]
    rw [skip_data]
    split
    case _ heq => rw [e1] at heq; cases heq
    case _ b s1 heq =>
      rw [e1] at heq
      cases heq
      rw [skip_data_loop_chain cs' (s.advance 1) c c.length rest hc hcs' r1]
      rw [Cursor.advance_advance]
      have hsum : c.length + sumLens cs' = sumLens (c :: cs') := by
        simp [sumLens]
      have hlen : 1 + (c.length + (encodeChain cs').length)
          = (encodeChain (c :: cs')).length := by
        simp [encodeChain]
        omega
      rw [hsum, hlen]

theorem skip_image_data_eq (s : Cursor) (lzw : Nat) (cs : List (List Nat))
    (rest : List Nat) (hcs : ∀ d ∈ cs, d ≠ [])
    (h : s.remaining = lzw :: (encodeChain cs ++ rest)) :
    skip_image_data s
      = .ok (sumLens cs, s.advance (1 + (encodeChain cs).length)) := by
  have r1 : (s.advance 1).remaining = encodeChain cs ++ rest := by
    rw [Cursor.remaining_advance, h]
    rfl
  rw [skip_image_data, skip_data_chain (s.advance 1) cs rest hcs r1,
    Cursor.advance_advance]

theorem skip_extension_eq (s : Cursor) (label : Nat) (cs : List (List Nat))
    (rest : List Nat) (hcs : ∀ d ∈ cs, d ≠ [])
    (h : s.remaining = EXT_INTRODUCER :: label :: (encodeChain cs ++ rest)) :
    skip_extension s
      = .ok (sumLens cs, s.advance (2 + (encodeChain cs).length)) := by
  have e1 : s.next_byte = .ok (EXT_INTRODUCER, s.advance 1) :=
    s.next_byte_cons EXT_INTRODUCER _ h
  have r1 : ((s.advance 1).advance 1).remaining = encodeChain cs ++ rest := by
    rw [Cursor.advance_advance, Cursor.remaining_advance, h]
    rfl
  rw [skip_extension, e1]
  simp only [EXT_INTRODUCER]
  rw [if_neg (by simp)]
  rw [skip_data_chain ((s.advance 1).advance 1) cs rest hcs r1]
  rw [Cursor.advance_advance, Cursor.advance_advance]
  have h12 : 1 + (1 + (encodeChain cs).length) = 2 + (encodeChain cs).length := by
    omega
  rw [h12]

theorem parse_gif_image_eq (s : Cursor) (i : ImgSrc)
    (gc : Option GraphicControlExtension) (rest : List Nat)
    (hwf : i.wf) (h : s.remaining = i.encode ++ rest) :
    parse_gif_image s gc = .ok (i.interp gc, s.advance i.encode.length) := by
  obtain ⟨htp, hta, hcs⟩ := hwf
  have hdesc : consume_image_descriptor s
      = .ok (i.descriptor, s.advance 10) :=
    consume_image_descriptor_eq s i.l0 i.l1 i.t0 i.t1 i.w0 i.w1 i.h0 i.h1
      i.packed (i.table ++ (i.lzw :: (encodeChain i.chunks ++ rest)))
      (by rw [h]; simp [ImgSrc.encode])
  have r10 : (s.advance 10).remaining
      = i.table ++ (i.lzw :: encodeChain i.chunks ++ rest) := by
    rw [Cursor.remaining_advance, h]
    simp [ImgSrc.encode]
  by_cases hex : (i.packed >>> 7) &&& 0x1 ≠ 0
  · have htl : i.table.length = 3 * 2 ^ ((i.packed &&& 0x7) + 1) := htp hex
    have hct : consume_color_table (s.advance 10) (i.descriptor.num_colors)
        = .ok (groupRGB i.table, (s.advance 10).advance i.table.length) := by
      have := consume_color_table_eq (2 ^ ((i.packed &&& 0x7) + 1)) (s.advance 10)
        i.table (i.lzw :: encodeChain i.chunks ++ rest) (by simpa using r10)
        (by rw [htl])
      rw [← htl] at this
      simpa [ImageDescriptor.num_colors, ImgSrc.descriptor] using this
    have rtl : ((s.advance 10).advance i.table.length).remaining
        = i.lzw :: (encodeChain i.chunks ++ rest) := by
      rw [Cursor.advance_advance, Cursor.remaining_advance, h]
      have hsplit : i.encode ++ rest
          = (IMAGE_SEPARATOR
              :: [i.l0, i.l1, i.t0, i.t1, i.w0, i.w1, i.h0, i.h1, i.packed]
              ++ i.table) ++ (i.lzw :: (encodeChain i.chunks ++ rest)) := by
        simp [ImgSrc.encode]
      rw [hsplit, List.drop_left' (by simp; omega)]
    have hskip : skip_image_data ((s.advance 10).advance i.table.length)
        = .ok (sumLens i.chunks,
               ((s.advance 10).advance i.table.length).advance
                 (1 + (encodeChain i.chunks).length)) :=
      skip_image_data_eq _ i.lzw i.chunks rest hcs rtl
    have hdex : i.descriptor.colortable_exists = true := by
      simp only [ImgSrc.descriptor]
      exact decide_eq_true hex
    rw [parse_gif_image, hdesc]
    dsimp only
    rw [hdex]
    simp only [if_true, hct, hskip]
    rw [Cursor.advance_advance, Cursor.advance_advance]
    have harg : 10 + (i.table.length + (1 + (encodeChain i.chunks).length))
        = i.encode.length := by
      simp [ImgSrc.encode]
      omega
    rw [harg]
    have hm : i.packed >>> 7 % 2 = 1 := by
      rw [Nat.and_one_is_mod] at hex
      omega
    simp [ImgSrc.interp, hm]
  · have htn : i.table = [] := hta (by simpa using hex)
    have rtl : (s.advance 10).remaining
        = i.lzw :: (encodeChain i.chunks ++ rest) := by
      rw [r10, htn]
      simp
    have hskip : skip_image_data (s.advance 10)
        = .ok (sumLens i.chunks,
               (s.advance 10).advance (1 + (encodeChain i.chunks).length)) :=
      skip_image_data_eq _ i.lzw i.chunks rest hcs rtl
    have hdex : i.descriptor.colortable_exists = false := by
      simp only [ImgSrc.descriptor]
      exact decide_eq_false hex
    rw [parse_gif_image, hdesc]
    dsimp only
    rw [hdex]
    simp only [Bool.false_eq_true, if_false, hskip]
    rw [Cursor.advance_advance]
    have harg : 10 + (1 + (encodeChain i.chunks).length) = i.encode.length := by
      simp [ImgSrc.encode, htn]
      omega
    rw [harg]
    have hm : i.packed >>> 7 % 2 = 0 := by
      rw [Nat.and_one_is_mod] at hex
      omega
    simp [ImgSrc.interp, hm]

/-! ## Dispatch loop on encoded block sequences -/

theorem Cursor.advance_zero (s : Cursor) : s.advance 0 = s := by
  simp [Cursor.advance]

theorem encodeBlocks_nil : encodeBlocks [] = [] := rfl

theorem encodeBlocks_cons (b : BlockSrc) (bs : List BlockSrc) :
    encodeBlocks (b :: bs) = b.encode ++ encodeBlocks bs := by
  simp [encodeBlocks]

theorem length_le_encodeBlocks :
    ∀ bs : List BlockSrc, bs.length ≤ (encodeBlocks bs).length := by
  intro bs
  induction bs with
  | nil => simp [encodeBlocks]
  | cons b bs ih =>
    rw [encodeBlocks_cons]
    have hb : 1 ≤ b.encode.length := by
      cases b <;> simp [BlockSrc.encode, GceSrc.encode, ImgSrc.encode]
    simp only [List.length_cons, List.length_append]
    omega

theorem parse_loop_blocks :
    ∀ (bs : List BlockSrc) (fuel : Nat) (s : Cursor)
      (gc : Option GraphicControlExtension) (images : List GifImage)
      (rest : List Nat),
      bs.length < fuel → (∀ b ∈ bs, b.wf) → blocksOk gc.isSome bs →
      s.remaining = encodeBlocks bs ++ TRAILER_LABEL :: rest →
      parse_loop fuel s gc images
        = .ok (images ++ interpBlocks gc bs,
               s.advance (encodeBlocks bs).length) := by
  intro bs
  induction bs with
  | nil =>
    intro fuel s gc images rest hfuel _ _ h
    cases fuel with
    | zero => omega
    | succ f =>
      have hbt : check_blocktype s = .ok .TRAILER := by
        apply check_blocktype_trailer s rest
        simpa [encodeBlocks] using h
      simp [parse_loop, hbt, interpBlocks, encodeBlocks, Cursor.advance_zero]
  | cons b bs' ih =>
    intro fuel s gc images rest hfuel hwf hok h
    cases fuel with
    | zero => omega
    | succ f =>
      have hwfb : b.wf := hwf b (by simp)
      have hwf' : ∀ x ∈ bs', x.wf := fun x hx => hwf x (by simp [hx])
      rw [encodeBlocks_cons] at h
      cases b with
      | gce g =>
        obtain ⟨hpend, hok'⟩ : gc.isSome = false ∧ blocksOk true bs' := hok
        have hgc : gc = none := by
          cases gc with
          | none => rfl
          | some x => simp at hpend
        subst hgc
        have hrem : s.remaining
            = EXT_INTRODUCER :: EXT_GRAPHIC_CONTROL_LABEL
              :: (g.blocksize :: g.packed :: g.d0 :: g.d1 :: g.tcolor
                  :: g.terminator :: (encodeBlocks bs' ++ TRAILER_LABEL :: rest)) := by
          rw [h]
          simp [GceSrc.encode, BlockSrc.encode]
        have hbt : check_blocktype s = .ok .EXT_GRAPHIC_CONTROL :=
          check_blocktype_gce s _ hrem
        have hcons : consume_graphic_control_extension s
            = .ok (g.interp, s.advance 8) := by
          apply consume_graphic_control_extension_eq s g
            (encodeBlocks bs' ++ TRAILER_LABEL :: rest) _ hwfb
          rw [h]
          simp [BlockSrc.encode]
        have hrem8 : (s.advance 8).remaining
            = encodeBlocks bs' ++ TRAILER_LABEL :: rest := by
          rw [Cursor.remaining_advance, h]
          simp [BlockSrc.encode, GceSrc.encode]
        have := ih f (s.advance 8) (some g.interp) images rest
          (by simpa using hfuel) hwf' (by simpa using hok') hrem8
        simp only [parse_loop, hbt, hcons]
        rw [this, Cursor.advance_advance, encodeBlocks_cons]
        have hlen : 8 + (encodeBlocks bs').length
            = ((BlockSrc.gce g).encode ++ encodeBlocks bs').length := by
          simp [BlockSrc.encode, GceSrc.encode]
          omega
        rw [hlen]
        simp [interpBlocks]
      | image i =>
        have hok' : blocksOk false bs' := hok
        have hrem : s.remaining
            = IMAGE_SEPARATOR :: i.l0
              :: (i.l1 :: i.t0 :: i.t1 :: i.w0 :: i.w1 :: i.h0 :: i.h1 :: i.packed
                  :: (i.table ++ i.lzw :: encodeChain i.chunks
                      ++ (encodeBlocks bs' ++ TRAILER_LABEL :: rest))) := by
          rw [h]
          simp [ImgSrc.encode, BlockSrc.encode]
        have hbt : check_blocktype s = .ok .IMAGE_DATA :=
          check_blocktype_image s i.l0 _ hrem
        have hcons : parse_gif_image s gc
            = .ok (i.interp gc, s.advance i.encode.length) := by
          apply parse_gif_image_eq s i gc
            (encodeBlocks bs' ++ TRAILER_LABEL :: rest) hwfb
          rw [h]
          simp [BlockSrc.encode]
        have hreme : (s.advance i.encode.length).remaining
            = encodeBlocks bs' ++ TRAILER_LABEL :: rest := by
          rw [Cursor.remaining_advance, h]
          have he : (BlockSrc.image i).encode = i.encode := rfl
          rw [he, List.append_assoc, List.drop_left]
        have := ih f (s.advance i.encode.length) none (images ++ [i.interp gc])
          rest (by simpa using hfuel) hwf' (by simpa using hok') hreme
        simp only [parse_loop, hbt, hcons]
        rw [this, Cursor.advance_advance, encodeBlocks_cons]
        have hlen : i.encode.length + (encodeBlocks bs').length
            = ((BlockSrc.image i).encode ++ encodeBlocks bs').length := by
          simp [BlockSrc.encode]
        rw [hlen]
        simp [interpBlocks]
      | ext label cs =>
        obtain ⟨hlab, hcs⟩ : label ≠ EXT_GRAPHIC_CONTROL_LABEL ∧ ∀ c ∈ cs, c ≠ [] :=
          hwfb
        have hok' : blocksOk gc.isSome bs' := hok
        have hrem : s.remaining
            = EXT_INTRODUCER :: label
              :: (encodeChain cs ++ (encodeBlocks bs' ++ TRAILER_LABEL :: rest)) := by
          rw [h]
          simp [BlockSrc.encode]
        have hbt : check_blocktype s = .ok .EXT_UNKNOWN :=
          check_blocktype_ext s label _ hrem hlab
        have hskip : skip_extension s
            = .ok (sumLens cs, s.advance (2 + (encodeChain cs).length)) :=
          skip_extension_eq s label cs (encodeBlocks bs' ++ TRAILER_LABEL :: rest)
            hcs hrem
        have hreme : (s.advance (2 + (encodeChain cs).length)).remaining
            = encodeBlocks bs' ++ TRAILER_LABEL :: rest := by
          rw [Cursor.remaining_advance, h, List.append_assoc]
          have hsplit : (BlockSrc.ext label cs).encode
              ++ (encodeBlocks bs' ++ TRAILER_LABEL :: rest)
              = (EXT_INTRODUCER :: label :: encodeChain cs)
                ++ (encodeBlocks bs' ++ TRAILER_LABEL :: rest) := by
            simp [BlockSrc.encode]
          rw [hsplit, List.drop_left' (by simp; omega)]
        have := ih f (s.advance (2 + (encodeChain cs).length)) gc images rest
          (by simpa using hfuel) hwf' hok' hreme
        simp only [parse_loop, hbt, hskip]
        rw [this, Cursor.advance_advance, encodeBlocks_cons]
        have hlen : 2 + (encodeChain cs).length + (encodeBlocks bs').length
            = ((BlockSrc.ext label cs).encode ++ encodeBlocks bs').length := by
          simp [BlockSrc.encode]
          omega
        rw [hlen]
        simp [interpBlocks]

/-! ## Whole-file correctness on encoded sources -/

theorem parse_metadata_encode (g : GifSrc) (hwf : g.wf) :
    parse_metadata g.encode
      = { result := .ok g.interp
          warnings :=
            if (g.spacked >>> 7) &&& 0x1 ≠ 0 then []
            else ["warning: no global color table"]
          closed := true } := by
  obtain ⟨hver, htp, hta, hbw, hok⟩ := hwf
  have hverlen : g.version.length = 3 := by
    rcases hver with hv | hv <;> simp [hv, VER_87a, VER_89a]
  have hr0 : Cursor.remaining ⟨g.encode, 0, false⟩ = g.encode := by
    simp [Cursor.remaining]
  have r6 : (Cursor.advance ⟨g.encode, 0, false⟩ 6).remaining
      = [g.w0, g.w1, g.h0, g.h1, g.spacked, g.sbg, g.spar]
        ++ (g.gtable ++ (encodeBlocks g.blocks ++ [TRAILER_LABEL])) := by
    rw [Cursor.remaining_advance, hr0]
    have henc : g.encode = (SIG_GIF ++ g.version)
        ++ ([g.w0, g.w1, g.h0, g.h1, g.spacked, g.sbg, g.spar]
            ++ (g.gtable ++ (encodeBlocks g.blocks ++ [TRAILER_LABEL]))) := by
      simp [GifSrc.encode]
    rw [henc, List.drop_left' (by simp [SIG_GIF, hverlen])]
  have r13 : (Cursor.advance ⟨g.encode, 0, false⟩ 13).remaining
      = g.gtable ++ (encodeBlocks g.blocks ++ [TRAILER_LABEL]) := by
    rw [Cursor.remaining_advance, hr0]
    have henc : g.encode = ((SIG_GIF ++ g.version)
        ++ [g.w0, g.w1, g.h0, g.h1, g.spacked, g.sbg, g.spar])
        ++ (g.gtable ++ (encodeBlocks g.blocks ++ [TRAILER_LABEL])) := by
      simp [GifSrc.encode]
    rw [henc, List.drop_left' (by simp [SIG_GIF, hverlen])]
  have rtab : (Cursor.advance ⟨g.encode, 0, false⟩ (13 + g.gtable.length)).remaining
      = encodeBlocks g.blocks ++ [TRAILER_LABEL] := by
    rw [Cursor.remaining_advance, hr0]
    have henc : g.encode = (((SIG_GIF ++ g.version)
        ++ [g.w0, g.w1, g.h0, g.h1, g.spacked, g.sbg, g.spar]) ++ g.gtable)
        ++ (encodeBlocks g.blocks ++ [TRAILER_LABEL]) := by
      simp [GifSrc.encode]
    rw [henc, List.drop_left' (by simp [SIG_GIF, hverlen]; omega)]
  have hhead : consume_header ⟨g.encode, 0, false⟩
      = .ok (g.interpVersion, Cursor.advance ⟨g.encode, 0, false⟩ 6) := by
    have := consume_header_eq ⟨g.encode, 0, false⟩ g.version
      ([g.w0, g.w1, g.h0, g.h1, g.spacked, g.sbg, g.spar]
        ++ (g.gtable ++ (encodeBlocks g.blocks ++ [TRAILER_LABEL])))
      (by rw [hr0]; simp [GifSrc.encode]) hver
    rw [this]
    rfl
  have hscr : consume_screen_descriptor (Cursor.advance ⟨g.encode, 0, false⟩ 6)
      = .ok (g.lsd, Cursor.advance ⟨g.encode, 0, false⟩ 13) := by
    have := consume_screen_descriptor_eq (Cursor.advance ⟨g.encode, 0, false⟩ 6)
      g.w0 g.w1 g.h0 g.h1 g.spacked g.sbg g.spar
      (g.gtable ++ (encodeBlocks g.blocks ++ [TRAILER_LABEL])) (by rw [r6]; rfl)
    rw [Cursor.advance_advance] at this
    exact this
  have hfuel : g.blocks.length < g.encode.length + 1 := by
    have h1 := length_le_encodeBlocks g.blocks
    have h2 : (encodeBlocks g.blocks).length ≤ g.encode.length := by
      simp [GifSrc.encode]
      omega
    omega
  by_cases hex : (g.spacked >>> 7) &&& 0x1 ≠ 0
  · have hlex : g.lsd.colortable_exists = true := by
      simp only [GifSrc.lsd]
      exact decide_eq_true hex
    have htab : g.gtable.length = 3 * 2 ^ ((g.spacked &&& 0x7) + 1) := htp hex
    have hct : consume_color_table (Cursor.advance ⟨g.encode, 0, false⟩ 13)
        g.lsd.num_colors
        = .ok (groupRGB g.gtable,
               Cursor.advance ⟨g.encode, 0, false⟩ (13 + g.gtable.length)) := by
      have := consume_color_table_eq (2 ^ ((g.spacked &&& 0x7) + 1))
        (Cursor.advance ⟨g.encode, 0, false⟩ 13) g.gtable
        (encodeBlocks g.blocks ++ [TRAILER_LABEL]) (by rw [r13]) (by rw [htab])
      rw [Cursor.advance_advance] at this
      rw [show (13 + 3 * 2 ^ ((g.spacked &&& 0x7) + 1)) = 13 + g.gtable.length from by
        rw [htab]] at this
      exact this
    have hloop := parse_loop_blocks g.blocks (g.encode.length + 1)
      (Cursor.advance ⟨g.encode, 0, false⟩ (13 + g.gtable.length)) none [] []
      hfuel hbw (by simpa using hok) (by rw [rtab])
    rw [parse_metadata]
    rw [hhead]
    dsimp only
    rw [hscr]
    dsimp only
    rw [hlex]
    simp only [if_true, hct]
    rw [hloop]
    try dsimp only
    have hm : g.spacked >>> 7 % 2 = 1 := by
      have hex' := hex
      rw [Nat.and_one_is_mod] at hex'
      omega
    simp [GifSrc.interp, GifSrc.interpVersion, Cursor.close, hm, hex]
  · have hlex : g.lsd.colortable_exists = false := by
      simp only [GifSrc.lsd]
      exact decide_eq_false hex
    have htabn : g.gtable = [] := hta (by simpa using hex)
    have hloop := parse_loop_blocks g.blocks (g.encode.length + 1)
      (Cursor.advance ⟨g.encode, 0, false⟩ 13) none [] []
      hfuel hbw (by simpa using hok)
      (by rw [r13, htabn]; simp)
    rw [parse_metadata]
    rw [hhead]
    dsimp only
    rw [hscr]
    dsimp only
    rw [hlex]
    simp only [Bool.false_eq_true, if_false]
    rw [hloop]
    try dsimp only
    have hm : g.spacked >>> 7 % 2 = 0 := by
      have hex' : (g.spacked >>> 7) &&& 0x1 = 0 := by
        by_contra hc
        exact hex hc
      rw [Nat.and_one_is_mod] at hex'
      omega
    simp [GifSrc.interp, GifSrc.interpVersion, Cursor.close, hm, hex]

/-! ## Error taxonomy lemmas -/

theorem Cursor.next_error (s : Cursor) (n : Nat) (e : GifError)
    (h : s.next n = .error e) : e = .shortRead := by
  simp only [Cursor.next] at h
  split at h
  · cases h
  · cases h
    rfl

theorem Cursor.next_byte_error (s : Cursor) (e : GifError)
    (h : s.next_byte = .error e) : e = .shortRead := by
  unfold Cursor.next_byte at h
  split at h
  · cases h
    rfl
  · cases h

theorem Cursor.next_int_error (s : Cursor) (n : Nat) (e : GifError)
    (h : s.next_int n = .error e) : e = .shortRead := by
  unfold Cursor.next_int at h
  split at h
  case _ e' heq =>
    cases h
    exact s.next_error n e heq
  case _ => cases h

theorem check_blocktype_ok_cases (s : Cursor) (bt : BlockType)
    (h : check_blocktype s = .ok bt) :
    bt = .TRAILER ∨ bt = .IMAGE_DATA ∨ bt = .EXT_GRAPHIC_CONTROL
      ∨ bt = .EXT_UNKNOWN := by
  unfold check_blocktype at h
  repeat' split at h
  all_goals try (injection h with h; subst h)
  all_goals first
  | cases h
  | simp

theorem check_blocktype_error_cases (s : Cursor) (e : GifError)
    (h : check_blocktype s = .error e) :
    e = .indexError ∨ e = .truncationAtBlocktype
      ∨ ∃ b0 b1, e = .unknownBlock b0 b1 := by
  unfold check_blocktype at h
  repeat' split at h
  all_goals try (injection h with h; subst h)
  all_goals first
  | cases h
  | simp

theorem skip_data_loop_error :
    ∀ (s : Cursor) (ds total : Nat) (e : GifError),
      skip_data_loop s ds total = .error e → e = .shortRead := by
  intro s ds total
  induction s, ds, total using skip_data_loop.induct with
  | case1 s total =>
    intro e h
    rw [skip_data_loop, if_pos rfl] at h
    cases h
  | case2 s ds total hds e' heq =>
    intro e h
    rw [skip_data_loop, if_neg hds] at h
    split at h
    case _ heq2 =>
      cases h
      exact Cursor.next_byte_error _ _ heq2
    case _ b s2 heq2 =>
      rw [heq] at heq2
      cases heq2
  | case3 s ds total hds b s2 heq ih =>
    intro e h
    rw [skip_data_loop, if_neg hds] at h
    split at h
    case _ heq2 =>
      cases h
      exact Cursor.next_byte_error _ _ heq2
    case _ b2 s3 heq2 =>
      rw [heq] at heq2
      injection heq2 with heq2
      injection heq2 with hb hs
      subst hb
      subst hs
      exact ih _ h

theorem skip_data_error (s : Cursor) (e : GifError)
    (h : skip_data s = .error e) : e = .shortRead := by
  unfold skip_data at h
  split at h
  case _ e2 heq =>
    cases h
    exact Cursor.next_byte_error _ _ heq
  case _ b s1 heq =>
    exact skip_data_loop_error _ _ _ _ h

theorem skip_image_data_error (s : Cursor) (e : GifError)
    (h : skip_image_data s = .error e) : e = .shortRead := by
  unfold skip_image_data at h
  exact skip_data_error _ _ h

theorem skip_extension_error (s : Cursor) (e : GifError)
    (h : skip_extension s = .error e) :
    e = .shortRead ∨ ∃ b, e = .badExtIntroducer b := by
  unfold skip_extension at h
  split at h
  case _ e2 heq =>
    cases h
    left
    exact Cursor.next_byte_error _ _ heq
  case _ b s1 heq =>
    split at h
    case _ hne =>
      cases h
      right
      exact ⟨b, rfl⟩
    case _ hne =>
      left
      exact skip_data_error _ _ h

theorem consume_header_error_cases (s : Cursor) (e : GifError)
    (h : consume_header s = .error e) :
    e = .shortRead ∨ e = .badSignature ∨ e = .badVersion := by
  unfold consume_header at h
  repeat' split at h
  all_goals cases h
  all_goals first
  | exact Or.inl (Cursor.next_error _ _ _ (by assumption))
  | simp

theorem consume_screen_descriptor_error (s : Cursor) (e : GifError)
    (h : consume_screen_descriptor s = .error e) : e = .shortRead := by
  unfold consume_screen_descriptor at h
  repeat' split at h
  all_goals cases h
  all_goals first
  | exact Cursor.next_int_error _ _ _ (by assumption)
  | exact Cursor.next_byte_error _ _ (by assumption)

theorem consume_color_table_error :
    ∀ (n : Nat) (s : Cursor) (e : GifError),
      consume_color_table s n = .error e → e = .shortRead := by
  intro n
  induction n with
  | zero =>
    intro s e h
    simp [consume_color_table] at h
  | succ n ih =>
    intro s e h
    simp only [consume_color_table] at h
    split at h
    case _ e2 heq =>
      cases h
      exact Cursor.next_error _ _ _ heq
    case _ bs s1 heq =>
      split at h
      case _ e2 heq2 =>
        cases h
        exact ih _ _ heq2
      case _ ct s2 heq2 => cases h

theorem consume_image_descriptor_error (s : Cursor) (e : GifError)
    (h : consume_image_descriptor s = .error e) :
    e = .shortRead ∨ ∃ b, e = .badSeparator b := by
  unfold consume_image_descriptor at h
  repeat' split at h
  all_goals cases h
  all_goals first
  | exact Or.inl (Cursor.next_int_error _ _ _ (by assumption))
  | exact Or.inl (Cursor.next_byte_error _ _ (by assumption))
  | simp

theorem consume_graphic_control_extension_error (s : Cursor) (e : GifError)
    (h : consume_graphic_control_extension s = .error e) :
    e = .shortRead ∨ e = .badGceSignature ∨ ∃ v, e = .disposalValueError v := by
  unfold consume_graphic_control_extension at h
  repeat' split at h
  all_goals cases h
  all_goals first
  | exact Or.inl (Cursor.next_error _ _ _ (by assumption))
  | exact Or.inl (Cursor.next_int_error _ _ _ (by assumption))
  | exact Or.inl (Cursor.next_byte_error _ _ (by assumption))
  | simp

theorem parse_gif_image_error (s : Cursor) (gc : Option GraphicControlExtension)
    (e : GifError) (h : parse_gif_image s gc = .error e) :
    e = .shortRead ∨ ∃ b, e = .badSeparator b := by
  unfold parse_gif_image at h
  repeat' split at h
  all_goals cases h
  all_goals first
  | exact consume_image_descriptor_error _ _ (by assumption)
  | exact Or.inl (consume_color_table_error _ _ _ (by assumption))
  | exact Or.inl (skip_image_data_error _ _ (by assumption))

theorem parse_loop_error_ne_ub :
    ∀ (fuel : Nat) (s : Cursor) (gc : Option GraphicControlExtension)
      (images : List GifImage) (e : GifError),
      parse_loop fuel s gc images = .error e → e ≠ .unexpectedBlocktype := by
  intro fuel
  induction fuel with
  | zero =>
    intro s gc images e h
    cases h
    simp
  | succ f ih =>
    intro s gc images e h
    simp only [parse_loop] at h
    split at h
    case _ e2 heq =>
      cases h
      rcases check_blocktype_error_cases _ _ heq with h2 | h2 | ⟨b0, b1, h2⟩ <;>
        simp [h2]
    case _ heq => cases h
    case _ heq =>
      split at h
      case _ => cases h; simp
      case _ =>
        split at h
        case _ e2 heq2 =>
          cases h
          rcases consume_graphic_control_extension_error _ _ heq2
            with h2 | h2 | ⟨v, h2⟩ <;> simp [h2]
        case _ g s1 heq2 => exact ih _ _ _ _ h
    case _ heq =>
      split at h
      case _ e2 heq2 =>
        cases h
        rcases parse_gif_image_error _ _ _ heq2 with h2 | ⟨b, h2⟩ <;> simp [h2]
      case _ img s1 heq2 => exact ih _ _ _ _ h
    case _ heq =>
      split at h
      case _ e2 heq2 =>
        cases h
        rcases skip_extension_error _ _ heq2 with h2 | ⟨b, h2⟩ <;> simp [h2]
      case _ r s1 heq2 => exact ih _ _ _ _ h
    case _ bt hnt hng hni hnu hchk =>
      rcases check_blocktype_ok_cases _ _ hchk with h2 | h2 | h2 | h2 <;>
        simp_all

theorem parse_metadata_result_ne_ub (data : List Nat) :
    (parse_metadata data).result ≠ .error .unexpectedBlocktype := by
  intro hub
  unfold parse_metadata at hub
  dsimp only at hub
  cases hh : consume_header ⟨data, 0, false⟩ with
  | error e =>
    rw [hh] at hub
    dsimp only at hub
    cases hub
    rcases consume_header_error_cases _ _ hh with h | h | h <;> cases h
  | ok p =>
    obtain ⟨version, s1⟩ := p
    rw [hh] at hub
    dsimp only at hub
    cases hs : consume_screen_descriptor s1 with
    | error e =>
      rw [hs] at hub
      dsimp only at hub
      cases hub
      have h2 := consume_screen_descriptor_error _ _ hs
      cases h2
    | ok p2 =>
      obtain ⟨lsd, s2⟩ := p2
      rw [hs] at hub
      dsimp only at hub
      by_cases hex : lsd.colortable_exists = true
      · rw [if_pos hex] at hub
        cases hct : consume_color_table s2 lsd.num_colors with
        | error e =>
          rw [hct] at hub
          dsimp only at hub
          cases hub
          have h2 := consume_color_table_error _ _ _ hct
          cases h2
        | ok p3 =>
          obtain ⟨ct, s3⟩ := p3
          rw [hct] at hub
          dsimp only at hub
          cases hpl : parse_loop (data.length + 1) s3 none [] with
          | error e =>
            rw [hpl] at hub
            dsimp only at hub
            cases hub
            exact parse_loop_error_ne_ub _ _ _ _ _ hpl rfl
          | ok p4 =>
            obtain ⟨imgs, s4⟩ := p4
            rw [hpl] at hub
            dsimp only at hub
            cases hub
      · rw [if_neg hex] at hub
        cases hpl : parse_loop (data.length + 1) s2 none [] with
        | error e =>
          rw [hpl] at hub
          dsimp only at hub
          cases hub
          exact parse_loop_error_ne_ub _ _ _ _ _ hpl rfl
        | ok p4 =>
          obtain ⟨imgs, s4⟩ := p4
          rw [hpl] at hub
          dsimp only at hub
          cases hub

theorem parse_metadata_closed_iff (data : List Nat) :
    (parse_metadata data).closed = true
      ↔ ∃ gif, (parse_metadata data).result = .ok gif := by
  unfold parse_metadata
  dsimp only
  cases hh : consume_header ⟨data, 0, false⟩ with
  | error e => simp [hh]
  | ok p =>
    obtain ⟨version, s1⟩ := p
    cases hs : consume_screen_descriptor s1 with
    | error e => simp [hh, hs]
    | ok p2 =>
      obtain ⟨lsd, s2⟩ := p2
      by_cases hex : lsd.colortable_exists = true
      · cases hct : consume_color_table s2 lsd.num_colors with
        | error e => simp [hh, hs, hex, hct]
        | ok p3 =>
          obtain ⟨ct, s3⟩ := p3
          cases hpl : parse_loop (data.length + 1) s3 none [] with
          | error e => simp [hh, hs, hex, hct, hpl]
          | ok p4 =>
            obtain ⟨imgs, s4⟩ := p4
            simp [hh, hs, hex, hct, hpl, Cursor.close]
      · cases hpl : parse_loop (data.length + 1) s2 none [] with
        | error e => simp [hh, hs, hex, hpl]
        | ok p4 =>
          obtain ⟨imgs, s4⟩ := p4
          simp [hh, hs, hex, hpl, Cursor.close]

/-! ## Color table length invariants on arbitrary inputs -/

theorem parse_gif_image_table_length (s s' : Cursor)
    (gc : Option GraphicControlExtension) (img : GifImage)
    (h : parse_gif_image s gc = .ok (img, s')) :
    ∀ ct, img.colortable = some ct
      → ct.length = img.image_descriptor.num_colors := by
  unfold parse_gif_image at h
  split at h
  case _ e heq => cases h
  case _ desc s1 heq =>
    split at h
    case _ hex =>
      split at h
      case _ e heq2 => cases h
      case _ ct0 s2 heq2 =>
        split at h
        case _ e heq3 => cases h
        case _ sz s3 heq3 =>
          injection h with h
          injection h with h hs
          subst h
          intro ct hct
          simp only at hct
          injection hct with hct
          subst hct
          simp only []
          exact consume_color_table_length _ _ _ _ heq2
    case _ hex =>
      split at h
      case _ e heq2 => cases h
      case _ sz s3 heq2 =>
        injection h with h
        injection h with h hs
        subst h
        intro ct hct
        simp only at hct
        cases hct

theorem parse_loop_images_length :
    ∀ (fuel : Nat) (s : Cursor) (gc : Option GraphicControlExtension)
      (images images' : List GifImage) (s' : Cursor),
      (∀ i ∈ images, ∀ ct, i.colortable = some ct
        → ct.length = i.image_descriptor.num_colors) →
      parse_loop fuel s gc images = .ok (images', s') →
      ∀ i ∈ images', ∀ ct, i.colortable = some ct
        → ct.length = i.image_descriptor.num_colors := by
  intro fuel
  induction fuel with
  | zero =>
    intro s gc images images' s' hinv h
    cases h
  | succ f ih =>
    intro s gc images images' s' hinv h
    simp only [parse_loop] at h
    split at h
    case _ e heq => cases h
    case _ heq =>
      injection h with h
      injection h with h hs
      subst h
      exact hinv
    case _ heq =>
      split at h
      case _ => cases h
      case _ =>
        split at h
        case _ e heq2 => cases h
        case _ g s1 heq2 => exact ih _ _ _ _ _ hinv h
    case _ heq =>
      split at h
      case _ e heq2 => cases h
      case _ img s1 heq2 =>
        refine ih _ _ _ _ _ ?_ h
        intro i hi
        rcases List.mem_append.mp hi with hi | hi
        · exact hinv i hi
        · have : i = img := by simpa using hi
          subst this
          exact parse_gif_image_table_length _ _ _ _ heq2
    case _ heq =>
      split at h
      case _ e heq2 => cases h
      case _ r s1 heq2 => exact ih _ _ _ _ _ hinv h
    case _ bt hnt hng hni hnu hchk => cases h

theorem parse_metadata_table_lengths (data : List Nat) (gif : Gif)
    (h : (parse_metadata data).result = .ok gif) :
    (∀ ct, gif.colortable = some ct
      → ct.length = gif.logical_screen_descriptor.num_colors)
    ∧ (∀ img ∈ gif.images, ∀ ct, img.colortable = some ct
        → ct.length = img.image_descriptor.num_colors) := by
  unfold parse_metadata at h
  dsimp only at h
  cases hh : consume_header ⟨data, 0, false⟩ with
  | error e => rw [hh] at h; dsimp only at h; cases h
  | ok p =>
    obtain ⟨version, s1⟩ := p
    rw [hh] at h
    dsimp only at h
    cases hs : consume_screen_descriptor s1 with
    | error e => rw [hs] at h; dsimp only at h; cases h
    | ok p2 =>
      obtain ⟨lsd, s2⟩ := p2
      rw [hs] at h
      dsimp only at h
      by_cases hex : lsd.colortable_exists = true
      · rw [if_pos hex] at h
        cases hct : consume_color_table s2 lsd.num_colors with
        | error e => rw [hct] at h; dsimp only at h; cases h
        | ok p3 =>
          obtain ⟨ct0, s3⟩ := p3
          rw [hct] at h
          dsimp only at h
          cases hpl : parse_loop (data.length + 1) s3 none [] with
          | error e => rw [hpl] at h; dsimp only at h; cases h
          | ok p4 =>
            obtain ⟨imgs, s4⟩ := p4
            rw [hpl] at h
            dsimp only at h
            injection h with h
            subst h
            constructor
            · intro ct hct2
              simp only at hct2
              injection hct2 with hct2
              subst hct2
              exact consume_color_table_length _ _ _ _ hct
            · intro img hm
              exact parse_loop_images_length _ _ _ _ _ _ (by simp) hpl img hm
      · rw [if_neg hex] at h
        cases hpl : parse_loop (data.length + 1) s2 none [] with
        | error e => rw [hpl] at h; dsimp only at h; cases h
        | ok p4 =>
          obtain ⟨imgs, s4⟩ := p4
          rw [hpl] at h
          dsimp only at h
          injection h with h
          subst h
          constructor
          · intro ct hct2
            simp only at hct2
            cases hct2
          · intro img hm
            exact parse_loop_images_length _ _ _ _ _ _ (by simp) hpl img hm

/-! ## Payload independence -/

theorem imgInterp_shapeEq (i j : ImgSrc) (gc : Option GraphicControlExtension)
    (h : ImgSrc.shapeEq i j) : i.interp gc = j.interp gc := by
  obtain ⟨h1, h2, h3, h4, h5, h6, h7, h8, h9, h10, h11, h12⟩ := h
  have hsum : sumLens i.chunks = sumLens j.chunks := by
    simp [sumLens, h12]
  simp [ImgSrc.interp, ImgSrc.descriptor, h1, h2, h3, h4, h5, h6, h7, h8, h9,
    h10, hsum]

theorem interpBlocks_shapeEq :
    ∀ (bs cs : List BlockSrc), List.Forall₂ BlockSrc.shapeEq bs cs →
      ∀ gc, interpBlocks gc bs = interpBlocks gc cs := by
  intro bs cs h
  induction h with
  | nil => intro gc; rfl
  | @cons a b l1 l2 hab hrest ih =>
    intro gc
    cases a with
    | gce ga =>
      cases b with
      | gce gb =>
        have : ga = gb := hab
        subst this
        simp [interpBlocks, ih]
      | image jb => exact absurd hab (by simp [BlockSrc.shapeEq])
      | ext lb cb => exact absurd hab (by simp [BlockSrc.shapeEq])
    | image ia =>
      cases b with
      | gce gb => exact absurd hab (by simp [BlockSrc.shapeEq])
      | image jb =>
        have hint : ia.interp gc = jb.interp gc :=
          imgInterp_shapeEq ia jb gc hab
        simp [interpBlocks, hint, ih]
      | ext lb cb => exact absurd hab (by simp [BlockSrc.shapeEq])
    | ext la ca =>
      cases b with
      | gce gb => exact absurd hab (by simp [BlockSrc.shapeEq])
      | image jb => exact absurd hab (by simp [BlockSrc.shapeEq])
      | ext lb cb => simp [interpBlocks, ih]

theorem gifInterp_shapeEq (g h : GifSrc) (hs : GifSrc.shapeEq g h) :
    g.interp = h.interp := by
  obtain ⟨h1, h2, h3, h4, h5, h6, h7, h8, h9, h10⟩ := hs
  simp [GifSrc.interp, GifSrc.interpVersion, GifSrc.lsd, h1, h2, h3, h4, h5,
    h6, h7, h8, h9, interpBlocks_shapeEq _ _ h10]

/-! ## Duplicate graphic control -/

theorem parse_loop_duplicate (fuel : Nat) (s : Cursor)
    (g : GraphicControlExtension) (images : List GifImage)
    (h : check_blocktype s = .ok .EXT_GRAPHIC_CONTROL) :
    parse_loop (fuel + 1) s (some g) images = .error .duplicateControl := by
  simp [parse_loop, h]

theorem encodeBlocks_append (a b : List BlockSrc) :
    encodeBlocks (a ++ b) = encodeBlocks a ++ encodeBlocks b := by
  simp [encodeBlocks]

theorem parse_loop_prefix :
    ∀ (pre : List BlockSrc) (fuel : Nat) (s : Cursor)
      (gc : Option GraphicControlExtension) (images : List GifImage)
      (tail : List Nat),
      pre.length ≤ fuel → (∀ b ∈ pre, b.wf) → blocksOk gc.isSome pre →
      s.remaining = encodeBlocks pre ++ tail →
      parse_loop fuel s gc images
        = parse_loop (fuel - pre.length) (s.advance (encodeBlocks pre).length)
            (pendingAfter gc pre) (images ++ interpBlocks gc pre) := by
  intro pre
  induction pre with
  | nil =>
    intro fuel s gc images tail _ _ _ _
    simp [encodeBlocks, interpBlocks, pendingAfter, Cursor.advance_zero]
  | cons b bs' ih =>
    intro fuel s gc images tail hfuel hwf hok h
    cases fuel with
    | zero => simp at hfuel
    | succ f =>
      have hwfb : b.wf := hwf b (by simp)
      have hwf' : ∀ x ∈ bs', x.wf := fun x hx => hwf x (by simp [hx])
      have hflen : bs'.length ≤ f := by simpa using hfuel
      rw [encodeBlocks_cons] at h
      cases b with
      | gce g =>
        obtain ⟨hpend, hok'⟩ : gc.isSome = false ∧ blocksOk true bs' := hok
        have hgc : gc = none := by
          cases gc with
          | none => rfl
          | some x => simp at hpend
        subst hgc
        have hrem : s.remaining
            = EXT_INTRODUCER :: EXT_GRAPHIC_CONTROL_LABEL
              :: (g.blocksize :: g.packed :: g.d0 :: g.d1 :: g.tcolor
                  :: g.terminator :: (encodeBlocks bs' ++ tail)) := by
          rw [h]
          simp [GceSrc.encode, BlockSrc.encode]
        have hbt : check_blocktype s = .ok .EXT_GRAPHIC_CONTROL :=
          check_blocktype_gce s _ hrem
        have hcons : consume_graphic_control_extension s
            = .ok (g.interp, s.advance 8) := by
          apply consume_graphic_control_extension_eq s g
            (encodeBlocks bs' ++ tail) _ hwfb
          rw [h]
          simp [BlockSrc.encode]
        have hrem8 : (s.advance 8).remaining = encodeBlocks bs' ++ tail := by
          rw [Cursor.remaining_advance, h]
          simp [BlockSrc.encode, GceSrc.encode]
        have hrec := ih f (s.advance 8) (some g.interp) images tail
          hflen hwf' (by simpa using hok') hrem8
        simp only [parse_loop, hbt, hcons]
        rw [hrec, Cursor.advance_advance, encodeBlocks_cons]
        have hlen : 8 + (encodeBlocks bs').length
            = ((BlockSrc.gce g).encode ++ encodeBlocks bs').length := by
          simp [BlockSrc.encode, GceSrc.encode]
          omega
        rw [hlen]
        simp [interpBlocks, pendingAfter, Nat.succ_sub_succ]
      | image i =>
        have hok' : blocksOk false bs' := hok
        have hrem : s.remaining
            = IMAGE_SEPARATOR :: i.l0
              :: (i.l1 :: i.t0 :: i.t1 :: i.w0 :: i.w1 :: i.h0 :: i.h1 :: i.packed
                  :: (i.table ++ i.lzw :: encodeChain i.chunks
                      ++ (encodeBlocks bs' ++ tail))) := by
          rw [h]
          simp [ImgSrc.encode, BlockSrc.encode]
        have hbt : check_blocktype s = .ok .IMAGE_DATA :=
          check_blocktype_image s i.l0 _ hrem
        have hcons : parse_gif_image s gc
            = .ok (i.interp gc, s.advance i.encode.length) := by
          apply parse_gif_image_eq s i gc (encodeBlocks bs' ++ tail) hwfb
          rw [h]
          simp [BlockSrc.encode]
        have hreme : (s.advance i.encode.length).remaining
            = encodeBlocks bs' ++ tail := by
          rw [Cursor.remaining_advance, h]
          have he : (BlockSrc.image i).encode = i.encode := rfl
          rw [he, List.append_assoc, List.drop_left]
        have hrec := ih f (s.advance i.encode.length) none
          (images ++ [i.interp gc]) tail hflen hwf' (by simpa using hok') hreme
        simp only [parse_loop, hbt, hcons]
        rw [hrec, Cursor.advance_advance, encodeBlocks_cons]
        have hlen : i.encode.length + (encodeBlocks bs').length
            = ((BlockSrc.image i).encode ++ encodeBlocks bs').length := by
          simp [BlockSrc.encode]
        rw [hlen]
        simp [interpBlocks, pendingAfter, Nat.succ_sub_succ]
      | ext label cs =>
        obtain ⟨hlab, hcs⟩ : label ≠ EXT_GRAPHIC_CONTROL_LABEL ∧ ∀ c ∈ cs, c ≠ [] :=
          hwfb
        have hok' : blocksOk gc.isSome bs' := hok
        have hrem : s.remaining
            = EXT_INTRODUCER :: label
              :: (encodeChain cs ++ (encodeBlocks bs' ++ tail)) := by
          rw [h]
          simp [BlockSrc.encode]
        have hbt : check_blocktype s = .ok .EXT_UNKNOWN :=
          check_blocktype_ext s label _ hrem hlab
        have hskip : skip_extension s
            = .ok (sumLens cs, s.advance (2 + (encodeChain cs).length)) :=
          skip_extension_eq s label cs (encodeBlocks bs' ++ tail) hcs hrem
        have hreme : (s.advance (2 + (encodeChain cs).length)).remaining
            = encodeBlocks bs' ++ tail := by
          rw [Cursor.remaining_advance, h, List.append_assoc]
          have hsplit : (BlockSrc.ext label cs).encode
              ++ (encodeBlocks bs' ++ tail)
              = (EXT_INTRODUCER :: label :: encodeChain cs)
                ++ (encodeBlocks bs' ++ tail) := by
            simp [BlockSrc.encode]
          rw [hsplit, List.drop_left' (by simp; omega)]
        have hrec := ih f (s.advance (2 + (encodeChain cs).length)) gc images
          tail hflen hwf' hok' hreme
        simp only [parse_loop, hbt, hskip]
        rw [hrec, Cursor.advance_advance, encodeBlocks_cons]
        have hlen : 2 + (encodeChain cs).length + (encodeBlocks bs').length
            = ((BlockSrc.ext label cs).encode ++ encodeBlocks bs').length := by
          simp [BlockSrc.encode]
          omega
        rw [hlen]
        simp [interpBlocks, pendingAfter, Nat.succ_sub_succ]

theorem parse_metadata_encode_general (g : GifSrc)
    (hver : g.version = VER_87a ∨ g.version = VER_89a)
    (htp : (g.spacked >>> 7) &&& 0x1 ≠ 0
      → g.gtable.length = 3 * 2 ^ ((g.spacked &&& 0x7) + 1))
    (hta : (g.spacked >>> 7) &&& 0x1 = 0 → g.gtable = []) :
    parse_metadata g.encode
      = match parse_loop (g.encode.length + 1)
            (Cursor.advance ⟨g.encode, 0, false⟩ (13 + g.gtable.length))
            none [] with
        | .error e =>
          { result := .error e
            warnings := if (g.spacked >>> 7) &&& 0x1 ≠ 0 then []
                        else ["warning: no global color table"]
            closed := false }
        | .ok (images, s4) =>
          { result := .ok { version := g.interpVersion
                            colortable := if (g.spacked >>> 7) &&& 0x1 ≠ 0
                                          then some (groupRGB g.gtable)
                                          else none
                            logical_screen_descriptor := g.lsd
                            images := images }
            warnings := if (g.spacked >>> 7) &&& 0x1 ≠ 0 then []
                        else ["warning: no global color table"]
            closed := (Cursor.close s4).closed } := by
  have hverlen : g.version.length = 3 := by
    rcases hver with hv | hv <;> simp [hv, VER_87a, VER_89a]
  have hr0 : Cursor.remaining ⟨g.encode, 0, false⟩ = g.encode := by
    simp [Cursor.remaining]
  have r6 : (Cursor.advance ⟨g.encode, 0, false⟩ 6).remaining
      = [g.w0, g.w1, g.h0, g.h1, g.spacked, g.sbg, g.spar]
        ++ (g.gtable ++ (encodeBlocks g.blocks ++ [TRAILER_LABEL])) := by
    rw [Cursor.remaining_advance, hr0]
    have henc : g.encode = (SIG_GIF ++ g.version)
        ++ ([g.w0, g.w1, g.h0, g.h1, g.spacked, g.sbg, g.spar]
            ++ (g.gtable ++ (encodeBlocks g.blocks ++ [TRAILER_LABEL]))) := by
      simp [GifSrc.encode]
    rw [henc, List.drop_left' (by simp [SIG_GIF, hverlen])]
  have r13 : (Cursor.advance ⟨g.encode, 0, false⟩ 13).remaining
      = g.gtable ++ (encodeBlocks g.blocks ++ [TRAILER_LABEL]) := by
    rw [Cursor.remaining_advance, hr0]
    have henc : g.encode = ((SIG_GIF ++ g.version)
        ++ [g.w0, g.w1, g.h0, g.h1, g.spacked, g.sbg, g.spar])
        ++ (g.gtable ++ (encodeBlocks g.blocks ++ [TRAILER_LABEL])) := by
      simp [GifSrc.encode]
    rw [henc, List.drop_left' (by simp [SIG_GIF, hverlen])]
  have hhead : consume_header ⟨g.encode, 0, false⟩
      = .ok (g.interpVersion, Cursor.advance ⟨g.encode, 0, false⟩ 6) := by
    have := consume_header_eq ⟨g.encode, 0, false⟩ g.version
      ([g.w0, g.w1, g.h0, g.h1, g.spacked, g.sbg, g.spar]
        ++ (g.gtable ++ (encodeBlocks g.blocks ++ [TRAILER_LABEL])))
      (by rw [hr0]; simp [GifSrc.encode]) hver
    rw [this]
    rfl
  have hscr : consume_screen_descriptor (Cursor.advance ⟨g.encode, 0, false⟩ 6)
      = .ok (g.lsd, Cursor.advance ⟨g.encode, 0, false⟩ 13) := by
    have := consume_screen_descriptor_eq (Cursor.advance ⟨g.encode, 0, false⟩ 6)
      g.w0 g.w1 g.h0 g.h1 g.spacked g.sbg g.spar
      (g.gtable ++ (encodeBlocks g.blocks ++ [TRAILER_LABEL])) (by rw [r6]; rfl)
    rw [Cursor.advance_advance] at this
    exact this
  by_cases hex : (g.spacked >>> 7) &&& 0x1 ≠ 0
  · have hlex : g.lsd.colortable_exists = true := by
      simp only [GifSrc.lsd]
      exact decide_eq_true hex
    have htab : g.gtable.length = 3 * 2 ^ ((g.spacked &&& 0x7) + 1) := htp hex
    have hct : consume_color_table (Cursor.advance ⟨g.encode, 0, false⟩ 13)
        g.lsd.num_colors
        = .ok (groupRGB g.gtable,
               Cursor.advance ⟨g.encode, 0, false⟩ (13 + g.gtable.length)) := by
      have := consume_color_table_eq (2 ^ ((g.spacked &&& 0x7) + 1))
        (Cursor.advance ⟨g.encode, 0, false⟩ 13) g.gtable
        (encodeBlocks g.blocks ++ [TRAILER_LABEL]) (by rw [r13]) (by rw [htab])
      rw [Cursor.advance_advance] at this
      rw [show (13 + 3 * 2 ^ ((g.spacked &&& 0x7) + 1)) = 13 + g.gtable.length
        from by rw [htab]] at this
      exact this
    rw [parse_metadata]
    rw [hhead]
    dsimp only
    rw [hscr]
    dsimp only
    rw [hlex]
    simp only [if_true, hct]
    have hm : g.spacked >>> 7 % 2 = 1 := by
      have hex' := hex
      rw [Nat.and_one_is_mod] at hex'
      omega
    cases hpl : parse_loop (g.encode.length + 1)
        (Cursor.advance ⟨g.encode, 0, false⟩ (13 + g.gtable.length)) none [] with
    | error e => simp [hm]
    | ok p4 =>
      obtain ⟨images, s4⟩ := p4
      simp [hm]
  · have hlex : g.lsd.colortable_exists = false := by
      simp only [GifSrc.lsd]
      exact decide_eq_false hex
    have htabn : g.gtable = [] := hta (by simpa using hex)
    rw [parse_metadata]
    rw [hhead]
    dsimp only
    rw [hscr]
    dsimp only
    rw [hlex]
    simp only [Bool.false_eq_true, if_false]
    rw [show (13 + g.gtable.length) = 13 from by rw [htabn]; rfl]
    have hm : g.spacked >>> 7 % 2 = 0 := by
      have hex' : (g.spacked >>> 7) &&& 0x1 = 0 := by
        by_contra hc
        exact hex hc
      rw [Nat.and_one_is_mod] at hex'
      omega
    cases hpl : parse_loop (g.encode.length + 1)
        (Cursor.advance ⟨g.encode, 0, false⟩ 13) none [] with
    | error e => simp [hm]
    | ok p4 =>
      obtain ⟨images, s4⟩ := p4
      simp [hm]

theorem parse_metadata_duplicate (g : GifSrc) (pre : List BlockSrc)
    (g2 : GceSrc) (more : List BlockSrc) (p : GraphicControlExtension)
    (hver : g.version = VER_87a ∨ g.version = VER_89a)
    (htp : (g.spacked >>> 7) &&& 0x1 ≠ 0
      → g.gtable.length = 3 * 2 ^ ((g.spacked &&& 0x7) + 1))
    (hta : (g.spacked >>> 7) &&& 0x1 = 0 → g.gtable = [])
    (hblocks : g.blocks = pre ++ .gce g2 :: more)
    (hprewf : ∀ b ∈ pre, b.wf)
    (hok : blocksOk false pre)
    (hpend : pendingAfter none pre = some p) :
    (parse_metadata g.encode).result = .error .duplicateControl := by
  rw [parse_metadata_encode_general g hver htp hta]
  have hverlen : g.version.length = 3 := by
    rcases hver with hv | hv <;> simp [hv, VER_87a, VER_89a]
  have hr0 : Cursor.remaining ⟨g.encode, 0, false⟩ = g.encode := by
    simp [Cursor.remaining]
  have rtab : (Cursor.advance ⟨g.encode, 0, false⟩ (13 + g.gtable.length)).remaining
      = encodeBlocks g.blocks ++ [TRAILER_LABEL] := by
    rw [Cursor.remaining_advance, hr0]
    have henc : g.encode = (((SIG_GIF ++ g.version)
        ++ [g.w0, g.w1, g.h0, g.h1, g.spacked, g.sbg, g.spar]) ++ g.gtable)
        ++ (encodeBlocks g.blocks ++ [TRAILER_LABEL]) := by
      simp [GifSrc.encode]
    rw [henc, List.drop_left' (by simp [SIG_GIF, hverlen]; omega)]
  have hrem : (Cursor.advance ⟨g.encode, 0, false⟩ (13 + g.gtable.length)).remaining
      = encodeBlocks pre
        ++ (encodeBlocks (.gce g2 :: more) ++ [TRAILER_LABEL]) := by
    rw [rtab, hblocks, encodeBlocks_append, List.append_assoc]
  have hlenb : g.blocks.length = pre.length + (more.length + 1) := by
    rw [hblocks]
    simp
  have h1 := length_le_encodeBlocks g.blocks
  have h3 : (encodeBlocks g.blocks).length ≤ g.encode.length := by
    simp [GifSrc.encode]
    omega
  have hfuelpre : pre.length ≤ g.encode.length + 1 := by omega
  have hpre := parse_loop_prefix pre (g.encode.length + 1)
    (Cursor.advance ⟨g.encode, 0, false⟩ (13 + g.gtable.length)) none []
    (encodeBlocks (.gce g2 :: more) ++ [TRAILER_LABEL]) hfuelpre hprewf
    (by simpa using hok) hrem
  have hbt : check_blocktype
      ((Cursor.advance ⟨g.encode, 0, false⟩ (13 + g.gtable.length)).advance
        (encodeBlocks pre).length) = .ok .EXT_GRAPHIC_CONTROL := by
    apply check_blocktype_gce _
      (g2.blocksize :: g2.packed :: g2.d0 :: g2.d1 :: g2.tcolor
        :: g2.terminator :: (encodeBlocks more ++ [TRAILER_LABEL]))
    rw [Cursor.remaining_advance, hrem, List.drop_left]
    simp [encodeBlocks_cons, BlockSrc.encode, GceSrc.encode]
  obtain ⟨k, hk⟩ : ∃ k, g.encode.length + 1 - pre.length = k + 1 :=
    ⟨g.encode.length - pre.length, by omega⟩
  rw [hpre, hpend, hk, parse_loop_duplicate k _ p _ hbt]

/-! ## Remaining helpers -/

theorem DisposalMethod.ofValue_none (v : Nat) (hv : 4 ≤ v) :
    DisposalMethod.ofValue v = none := by
  obtain ⟨k, rfl⟩ : ∃ k, v = k + 4 := ⟨v - 4, by omega⟩
  rfl

theorem consume_graphic_control_extension_err (s : Cursor) (g : GceSrc)
    (rest : List Nat) (h : s.remaining = g.encode ++ rest)
    (hd : 4 ≤ g.disposal) :
    consume_graphic_control_extension s
      = .error (.disposalValueError g.disposal) := by
  have hsig : s.next 2
      = .ok ([EXT_INTRODUCER, EXT_GRAPHIC_CONTROL_LABEL], s.advance 2) := by
    apply s.next_eq_of_remaining 2 [EXT_INTRODUCER, EXT_GRAPHIC_CONTROL_LABEL]
      (g.blocksize :: g.packed :: g.d0 :: g.d1 :: g.tcolor :: g.terminator :: rest) _ rfl
    simpa [GceSrc.encode] using h
  have r0 : (s.advance 3).remaining
      = g.packed :: g.d0 :: g.d1 :: g.tcolor :: g.terminator :: rest := by
    rw [Cursor.remaining_advance, h]
    simp [GceSrc.encode]
  have e0 : (s.advance 3).next_byte = .ok (g.packed, s.advance 4) := by
    have := (s.advance 3).next_byte_cons g.packed _ r0
    rwa [Cursor.advance_advance] at this
  have r1 : (s.advance 4).remaining
      = g.d0 :: g.d1 :: g.tcolor :: g.terminator :: rest := by
    rw [Cursor.remaining_advance, h]
    simp [GceSrc.encode]
  have e1 : (s.advance 4).next_int 2 = .ok (g.d0 + 256 * g.d1, s.advance 6) := by
    have := (s.advance 4).next_int2_eq g.d0 g.d1 _ r1
    rwa [Cursor.advance_advance] at this
  have r2 : (s.advance 6).remaining = g.tcolor :: g.terminator :: rest := by
    rw [Cursor.remaining_advance, h]
    simp [GceSrc.encode]
  have e2 : (s.advance 6).next_byte = .ok (g.tcolor, s.advance 7) := by
    have := (s.advance 6).next_byte_cons g.tcolor _ r2
    rwa [Cursor.advance_advance] at this
  have hdm : DisposalMethod.ofValue ((g.packed >>> 2) &&& 0x7) = none :=
    DisposalMethod.ofValue_none _ hd
  have hadv : (s.advance 2).advance 1 = s.advance 3 := by
    rw [Cursor.advance_advance]
  simp only [consume_graphic_control_extension, hsig, hadv, e0, e1, e2] at hdm ⊢
  simp [hdm, GceSrc.disposal]

theorem encodeChain_length :
    ∀ cs : List (List Nat),
      (encodeChain cs).length = sumLens cs + cs.length + 1 := by
  intro cs
  induction cs with
  | nil => simp [encodeChain, sumLens]
  | cons c cs ih =>
    simp [encodeChain, sumLens, ih]
    omega

theorem consume_color_table_read :
    ∀ (n : Nat) (s s' : Cursor) (ct : Colortable),
      consume_color_table s n = .ok (ct, s') →
      ct = groupRGB (s.read (3 * n)) ∧ (s.read (3 * n)).length = 3 * n := by
  intro n
  induction n with
  | zero =>
    intro s s' ct h
    simp only [consume_color_table, Except.ok.injEq, Prod.mk.injEq] at h
    obtain ⟨hct, -⟩ := h
    subst hct
    simp [Cursor.read, groupRGB]
  | succ n ih =>
    intro s s' ct h
    simp only [consume_color_table] at h
    split at h
    case _ e heq => cases h
    case _ bs s1 heq =>
      split at h
      case _ e heq2 => cases h
      case _ rest s2 heq2 =>
        simp only [Except.ok.injEq, Prod.mk.injEq] at h
        obtain ⟨hct, -⟩ := h
        simp only [Cursor.next] at heq
        split at heq
        case _ hl =>
          simp only [Except.ok.injEq, Prod.mk.injEq] at heq
          obtain ⟨hbs, hs1⟩ := heq
          obtain ⟨ihct, ihlen⟩ := ih s1 s2 rest heq2
          have hsplit : s.read (3 * (n + 1)) = s.read 3 ++ s1.read (3 * n) := by
            have h31 : 3 * (n + 1) = 3 + 3 * n := by ring
            rw [h31]
            simp only [Cursor.read]
            rw [List.take_add]
            congr 1
            rw [← hs1, Cursor.remaining_advance]
          obtain ⟨b0, b1, b2, hr⟩ : ∃ b0 b1 b2, s.read 3 = [b0, b1, b2] := by
            cases hx : s.read 3 with
            | nil =>
              rw [hx] at hl
              simp only [List.length_nil] at hl
              omega
            | cons a t1 =>
              cases t1 with
              | nil =>
                rw [hx] at hl
                simp only [List.length_cons, List.length_nil] at hl
                omega
              | cons b t2 =>
                cases t2 with
                | nil =>
                  rw [hx] at hl
                  simp only [List.length_cons, List.length_nil] at hl
                  omega
                | cons c t3 =>
                  cases t3 with
                  | nil => exact ⟨a, b, c, hx ▸ rfl⟩
                  | cons d t4 =>
                    rw [hx] at hl
                    simp only [List.length_cons] at hl
                    omega
          constructor
          · rw [← hct, hsplit, hr, ihct]
            have hbv : bs = [b0, b1, b2] := by rw [← hbs, hr]
            subst hbv
            simp [groupRGB]
          · rw [hsplit, hr]
            simp only [List.length_append, List.length_cons, List.length_nil]
            omega
        case _ => cases heq

theorem groupRGB_flatten :
    ∀ (n : Nat) (raw : List Nat), raw.length = 3 * n →
      ((groupRGB raw).map (fun t => [t.1, t.2.1, t.2.2])).flatten = raw := by
  intro n
  induction n with
  | zero =>
    intro raw h
    have hnil : raw = [] := List.eq_nil_of_length_eq_zero (by omega)
    subst hnil
    rfl
  | succ n ih =>
    intro raw h
    match raw, h with
    | b0 :: b1 :: b2 :: rest, h =>
      have hlen : rest.length = 3 * n := by
        simp only [List.length_cons] at h
        omega
      simp only [groupRGB, List.map_cons, List.flatten_cons, ih rest hlen]
      rfl

theorem interpBlocks_table_src :
    ∀ (bs : List BlockSrc) (gc : Option GraphicControlExtension)
      (img : GifImage), img ∈ interpBlocks gc bs →
      ∀ ct, img.colortable = some ct →
      ∃ i : ImgSrc, BlockSrc.image i ∈ bs ∧ ct = groupRGB i.table := by
  intro bs
  induction bs with
  | nil =>
    intro gc img hm
    simp [interpBlocks] at hm
  | cons b bs' ih =>
    intro gc img hm ct hct
    cases b with
    | gce g =>
      rw [show interpBlocks gc (.gce g :: bs')
          = interpBlocks (some g.interp) bs' from rfl] at hm
      obtain ⟨i, hi, hcti⟩ := ih _ img hm ct hct
      exact ⟨i, by simp [hi], hcti⟩
    | image i0 =>
      rw [show interpBlocks gc (.image i0 :: bs')
          = i0.interp gc :: interpBlocks none bs' from rfl] at hm
      rcases List.mem_cons.mp hm with hm | hm
      · subst hm
        simp only [ImgSrc.interp] at hct
        split at hct
        case _ hbit =>
          injection hct with hct
          exact ⟨i0, by simp, hct.symm⟩
        case _ hbit => cases hct
      · obtain ⟨i, hi, hcti⟩ := ih _ img hm ct hct
        exact ⟨i, by simp [hi], hcti⟩
    | ext l c =>
      rw [show interpBlocks gc (.ext l c :: bs')
          = interpBlocks gc bs' from rfl] at hm
      obtain ⟨i, hi, hcti⟩ := ih _ img hm ct hct
      exact ⟨i, by simp [hi], hcti⟩

/-! ## Claim theorems -/

/-- Claim C1: the spec states that bit 6 of the image-descriptor packed
byte becomes the ImageDescriptor's interlace flag, so a synthetic GIF's
interlace bit round-trips into the parsed frame's `interlace` field.
The code violates this: line 315 of gif.py assigns the bit to a stray
attribute `interlaced`, so the declared `interlace` field (gif.py line
151) keeps its `__init__` value False. At a one-frame GIF whose image
descriptor packed byte is 0x40 (bit 6 set), the parsed frame's
`interlace` field is false while the stray `interlaced` attribute
received the bit. -/
theorem C1_interlace_bug :
    ∃ gif,
      (parse_metadata [0x47, 0x49, 0x46, 0x38, 0x39, 0x61,
          1, 0, 1, 0, 0, 0, 0,
          0x2C, 0, 0, 0, 0, 1, 0, 1, 0, 0x40,
          2, 1, 0xAA, 0,
          0x3B]).result = .ok gif
      ∧ gif.images.map
          (fun i => (i.image_descriptor.interlace, i.image_descriptor.interlaced))
          = [(false, true)]
      ∧ (0x40 >>> 6) &&& 0x1 = 1 := by
  have henc : ([0x47, 0x49, 0x46, 0x38, 0x39, 0x61,
        1, 0, 1, 0, 0, 0, 0,
        0x2C, 0, 0, 0, 0, 1, 0, 1, 0, 0x40,
        2, 1, 0xAA, 0,
        0x3B] : List Nat)
      = GifSrc.encode ⟨VER_89a, 1, 0, 1, 0, 0, 0, 0, [],
          [.image ⟨0, 0, 0, 0, 1, 0, 1, 0, 0x40, [], 2, [[0xAA]]⟩]⟩ := by rfl
  have hwf : GifSrc.wf ⟨VER_89a, 1, 0, 1, 0, 0, 0, 0, [],
      [.image ⟨0, 0, 0, 0, 1, 0, 1, 0, 0x40, [], 2, [[0xAA]]⟩]⟩ := by
    refine ⟨Or.inr rfl, by decide, by decide, ?_, ?_⟩
    · intro b hb
      simp only [List.mem_singleton] at hb
      subst hb
      refine ⟨by decide, by decide, by decide⟩
    · simp [blocksOk]
  rw [henc, parse_metadata_encode _ hwf]
  exact ⟨_, rfl, by rfl, by rfl⟩

/-- Claim C2: the spec requires the stream resource to be released on
every exit path of the aggregate parse, including error propagation.
The code violates this: `gifstream.close()` (gif.py line 491) is the
last statement of `Gif.__parse_metadata` with no try/finally, so it
runs exactly when the parse succeeds; every raising path propagates
without closing. First conjunct: close is reached iff the parse
returns a root aggregate. Remaining conjuncts: at the concrete bad
signature input "XIF", the parse raises and the stream is not closed. -/
theorem C2_close_skipped_on_error :
    (∀ data : List Nat,
      (parse_metadata data).closed = true
        ↔ ∃ gif, (parse_metadata data).result = .ok gif)
    ∧ (parse_metadata [0x58, 0x49, 0x46]).result = .error .badSignature
    ∧ (parse_metadata [0x58, 0x49, 0x46]).closed = false := by
  refine ⟨parse_metadata_closed_iff, ?_, ?_⟩
  · rfl
  · rfl

/-- Claim C3 (counterexample to the claim as stated): the claim says
the graphic-control decode succeeds for disposal-method codes 4-7.
It does not: at the packed byte 0x10 (code 4) the decode raises the
Python ValueError from the DisposalMethod enum constructor (gif.py
line 417). -/
theorem C3_counterexample :
    consume_graphic_control_extension
      ⟨[0x21, 0xF9, 4, 0x10, 0, 0, 0, 0], 0, false⟩
      = .error (.disposalValueError 4) := by rfl

/-- Claim C3 (amended): for every graphic-control extension block,
disposal codes 0-3 decode successfully and map directly to the
four-valued enum, while reserved codes 4-7 make the decode raise a
ValueError from the enum constructor rather than being accepted. -/
theorem C3_disposal_validation (s : Cursor) (g : GceSrc) (rest : List Nat)
    (h : s.remaining = GceSrc.encode g ++ rest) :
    (g.disposal < 4 →
      consume_graphic_control_extension s = .ok (g.interp, s.advance 8)
      ∧ DisposalMethod.ofValue g.disposal = some (g.interp.disposal_method))
    ∧ (4 ≤ g.disposal →
      consume_graphic_control_extension s
        = .error (.disposalValueError g.disposal)) := by
  constructor
  · intro hd
    refine ⟨consume_graphic_control_extension_eq s g rest h hd, ?_⟩
    have : ∃ dm, DisposalMethod.ofValue g.disposal = some dm := by
      unfold GceSrc.disposal at hd ⊢
      interval_cases hi : ((g.packed >>> 2) &&& 0x7) <;>
        simp [DisposalMethod.ofValue]
    obtain ⟨dm, hdm⟩ := this
    rw [hdm]
    simp [GceSrc.interp, hdm]
  · intro hd
    exact consume_graphic_control_extension_err s g rest h hd

/-- Witness for C3: the amended theorem applied at the concrete block
whose packed byte 0x10 carries disposal code 4. -/
theorem C3_disposal_validation_witness :
    consume_graphic_control_extension
      ⟨[0x21, 0xF9, 4, 0x10, 0, 0, 0, 0], 0, false⟩
      = .error (.disposalValueError
          (GceSrc.disposal ⟨4, 0x10, 0, 0, 0, 0⟩)) :=
  (C3_disposal_validation ⟨[0x21, 0xF9, 4, 0x10, 0, 0, 0, 0], 0, false⟩
    ⟨4, 0x10, 0, 0, 0, 0⟩ [] (by rfl)).2 (by decide)

/-- Claim C4: a graphic-control block encountered while a pending
graphic-control value exists makes the parse raise the fatal
duplicate-control error rather than store or overwrite (first
conjunct, the dispatch-loop step); consequently every file in which a
second graphic-control block follows an earlier one with no
intervening image block (only non-image extension blocks and no image
consuming the pending value) fails with that error (second conjunct,
over encoded files: `pendingAfter none pre = some p` states that after
the prefix the pending value is still held). -/
theorem C4_duplicate_control :
    (∀ (fuel : Nat) (s : Cursor) (g : GraphicControlExtension)
        (images : List GifImage),
      check_blocktype s = .ok .EXT_GRAPHIC_CONTROL →
      parse_loop (fuel + 1) s (some g) images = .error .duplicateControl)
    ∧ (∀ (g : GifSrc) (pre : List BlockSrc) (g2 : GceSrc)
        (more : List BlockSrc) (p : GraphicControlExtension),
      (g.version = VER_87a ∨ g.version = VER_89a) →
      ((g.spacked >>> 7) &&& 0x1 ≠ 0
        → g.gtable.length = 3 * 2 ^ ((g.spacked &&& 0x7) + 1)) →
      ((g.spacked >>> 7) &&& 0x1 = 0 → g.gtable = []) →
      g.blocks = pre ++ .gce g2 :: more →
      (∀ b ∈ pre, b.wf) →
      blocksOk false pre →
      pendingAfter none pre = some p →
      (parse_metadata g.encode).result = .error .duplicateControl) := by
  constructor
  · intro fuel s g images h
    exact parse_loop_duplicate fuel s g images h
  · intro g pre g2 more p hver htp hta hblocks hprewf hok hpend
    exact parse_metadata_duplicate g pre g2 more p hver htp hta hblocks
      hprewf hok hpend

/-- Witness for C4: the file "GIF89a", an empty screen descriptor, two
consecutive graphic-control blocks and a trailer fails with the
duplicate-control error. -/
theorem C4_duplicate_control_witness :
    (parse_metadata (GifSrc.encode ⟨VER_89a, 0, 0, 0, 0, 0, 0, 0, [],
        [.gce ⟨4, 0, 0, 0, 0, 0⟩, .gce ⟨4, 0, 0, 0, 0, 0⟩]⟩)).result
      = .error .duplicateControl :=
  C4_duplicate_control.2
    ⟨VER_89a, 0, 0, 0, 0, 0, 0, 0, [],
      [.gce ⟨4, 0, 0, 0, 0, 0⟩, .gce ⟨4, 0, 0, 0, 0, 0⟩]⟩
    [.gce ⟨4, 0, 0, 0, 0, 0⟩] ⟨4, 0, 0, 0, 0, 0⟩ [] (GceSrc.interp ⟨4, 0, 0, 0, 0, 0⟩)
    (Or.inr rfl) (by decide) (by decide) (by rfl)
    (by
      intro b hb
      simp only [List.mem_singleton] at hb
      subst hb
      exact (by decide : GceSrc.disposal ⟨4, 0, 0, 0, 0, 0⟩ < 4))
    (by simp [blocksOk])
    (by rfl)

/-- Claim C5: on a sub-block chain (length-prefixed chunks ended by a
zero length byte) the skip primitive returns exactly the sum of the
length bytes (payload bytes only, excluding length bytes and the
terminating zero), and leaves the cursor positioned just past the
terminating zero: the whole encoded chain occupies payload + one
length byte per chunk + the final zero. -/
theorem C5_skip_data_chain (s : Cursor) (cs : List (List Nat))
    (rest : List Nat) (hcs : ∀ d ∈ cs, d ≠ [])
    (h : s.remaining = encodeChain cs ++ rest) :
    skip_data s
      = .ok ((cs.map List.length).sum, s.advance (encodeChain cs).length)
    ∧ (encodeChain cs).length = (cs.map List.length).sum + cs.length + 1 := by
  constructor
  · have := skip_data_chain s cs rest hcs h
    simpa [sumLens] using this
  · have := encodeChain_length cs
    simpa [sumLens] using this

/-- Witness for C5: the chain 02 AA BB | 01 CC | 00 skips 3 payload
bytes and ends just past the terminating zero (6 bytes of chain). -/
theorem C5_skip_data_chain_witness :
    skip_data ⟨[2, 0xAA, 0xBB, 1, 0xCC, 0, 9, 9], 0, false⟩
      = .ok ((([[0xAA, 0xBB], [0xCC]] : List (List Nat)).map List.length).sum,
             Cursor.advance ⟨[2, 0xAA, 0xBB, 1, 0xCC, 0, 9, 9], 0, false⟩
               (encodeChain [[0xAA, 0xBB], [0xCC]]).length) :=
  (C5_skip_data_chain ⟨[2, 0xAA, 0xBB, 1, 0xCC, 0, 9, 9], 0, false⟩
    [[0xAA, 0xBB], [0xCC]] [9, 9] (by decide) (by rfl)).1

/-- Claim C6: `num_colors` of either descriptor type is 2^(C+1) for
size code C; the color-table decode used for both global and local
tables returns exactly that many RGB triples taken from the input
bytes in file order (the produced table is the next 3n bytes at the
cursor grouped into consecutive triples, and flattening the triples
reproduces those bytes exactly); in every successful parse the global
table (if present) and every frame's local table (if present) have
exactly the owning descriptor's `num_colors` entries; and for every
well-formed encoded file the parsed global table is the file's raw
global-table bytes grouped in order, and every frame's local table is
the raw table bytes of its image block grouped in order. -/
theorem C6_color_table_lengths :
    (∀ d : LogicalScreenDescriptor, d.num_colors = 2 ^ (d.colortable_size + 1))
    ∧ (∀ d : ImageDescriptor, d.num_colors = 2 ^ (d.colortable_size + 1))
    ∧ (∀ (n : Nat) (s s' : Cursor) (ct : Colortable),
        consume_color_table s n = .ok (ct, s') →
        ct.length = n
        ∧ ct = groupRGB (s.read (3 * n))
        ∧ (ct.map (fun t => [t.1, t.2.1, t.2.2])).flatten = s.read (3 * n))
    ∧ (∀ (data : List Nat) (gif : Gif),
        (parse_metadata data).result = .ok gif →
        (∀ ct, gif.colortable = some ct
          → ct.length = gif.logical_screen_descriptor.num_colors)
        ∧ (∀ img ∈ gif.images, ∀ ct, img.colortable = some ct
            → ct.length = img.image_descriptor.num_colors))
    ∧ (∀ g : GifSrc, GifSrc.wf g → ∀ gif,
        (parse_metadata g.encode).result = .ok gif →
        (∀ ct, gif.colortable = some ct → ct = groupRGB g.gtable)
        ∧ (∀ img ∈ gif.images, ∀ ct, img.colortable = some ct
            → ∃ i : ImgSrc, BlockSrc.image i ∈ g.blocks
              ∧ ct = groupRGB i.table)) := by
  refine ⟨fun d => rfl, fun d => rfl, ?_, ?_, ?_⟩
  · intro n s s' ct h
    obtain ⟨hct, hlen⟩ := consume_color_table_read n s s' ct h
    refine ⟨consume_color_table_length n s s' ct h, hct, ?_⟩
    rw [hct]
    exact groupRGB_flatten n _ hlen
  · intro data gif h
    exact parse_metadata_table_lengths data gif h
  · intro g hwf gif h
    rw [parse_metadata_encode g hwf] at h
    have h2 : (Except.ok g.interp : Except GifError Gif) = .ok gif := h
    injection h2 with h2
    subst h2
    constructor
    · intro ct hct
      simp only [GifSrc.interp] at hct
      split at hct
      case _ hbit =>
        injection hct with hct
        exact hct.symm
      case _ hbit => cases hct
    · intro img hm ct hct
      have him : img ∈ interpBlocks none g.blocks := hm
      exact interpBlocks_table_src g.blocks none img him ct hct

/-- Witness for C6: the size-code-0 table decode on the bytes
1 2 3 4 5 6 produces the triples (1,2,3),(4,5,6) in file order, and in
the parse of a file with that global table the table length equals the
screen descriptor's num_colors. -/
theorem C6_color_table_lengths_witness :
    ([(1, 2, 3), (4, 5, 6)] : Colortable)
        = groupRGB (Cursor.read ⟨[1, 2, 3, 4, 5, 6, 0x3B], 0, false⟩ (3 * 2))
    ∧ ([(1, 2, 3), (4, 5, 6)] : Colortable).length
        = LogicalScreenDescriptor.num_colors
            ⟨0, 0, true, 0, false, 0, 0, 0⟩ := by
  constructor
  · exact ((C6_color_table_lengths.2.2.1 2
      ⟨[1, 2, 3, 4, 5, 6, 0x3B], 0, false⟩
      ⟨[1, 2, 3, 4, 5, 6, 0x3B], 6, false⟩
      [(1, 2, 3), (4, 5, 6)] (by rfl)).2).1
  · exact (C6_color_table_lengths.2.2.2.1
      [0x47, 0x49, 0x46, 0x38, 0x37, 0x61, 0, 0, 0, 0, 0x80, 0, 0,
        1, 2, 3, 4, 5, 6, 0x3B]
      ⟨.GIF87a, some [(1, 2, 3), (4, 5, 6)],
        ⟨0, 0, true, 0, false, 0, 0, 0⟩, []⟩
      (by rfl)).1 [(1, 2, 3), (4, 5, 6)] rfl

/-- Claim C7: block classification peeks and never consumes (first
conjunct: the classifier is a function of the two peeked bytes alone,
and `Cursor.read` leaves the cursor untouched), follows the
first-byte/second-byte rule in order with the unknown-block error
carrying both observed bytes (second conjunct), and with only one byte
remaining returns Trailer on 0x3B and otherwise raises the fatal
truncation error (third conjunct). -/
theorem C7_check_blocktype :
    (∀ s t : Cursor, s.read 2 = t.read 2
      → check_blocktype s = check_blocktype t)
    ∧ (∀ (s : Cursor) (b0 b1 : Nat) (rest : List Nat),
        s.remaining = b0 :: b1 :: rest →
        check_blocktype s
          = if b0 = TRAILER_LABEL then .ok .TRAILER
            else if b0 = IMAGE_SEPARATOR then .ok .IMAGE_DATA
            else if b0 = EXT_INTRODUCER then
              if b1 = EXT_GRAPHIC_CONTROL_LABEL then .ok .EXT_GRAPHIC_CONTROL
              else .ok .EXT_UNKNOWN
            else .error (.unknownBlock b0 b1))
    ∧ (∀ (s : Cursor) (b0 : Nat), s.remaining = [b0] →
        check_blocktype s
          = if b0 = TRAILER_LABEL then .ok .TRAILER
            else .error .truncationAtBlocktype) := by
  refine ⟨?_, ?_, ?_⟩
  · intro s t h
    unfold check_blocktype
    rw [h]
  · intro s b0 b1 rest h
    by_cases h0 : b0 = TRAILER_LABEL
    · subst h0
      rw [check_blocktype_trailer s _ h]
      simp
    · by_cases h1 : b0 = IMAGE_SEPARATOR
      · subst h1
        rw [check_blocktype_image s _ _ h]
        simp [IMAGE_SEPARATOR, TRAILER_LABEL]
      · by_cases h2 : b0 = EXT_INTRODUCER
        · subst h2
          by_cases h3 : b1 = EXT_GRAPHIC_CONTROL_LABEL
          · subst h3
            rw [check_blocktype_gce s _ h]
            simp [EXT_INTRODUCER, IMAGE_SEPARATOR, TRAILER_LABEL]
          · rw [check_blocktype_ext s _ _ h h3]
            simp [h3, EXT_INTRODUCER, IMAGE_SEPARATOR, TRAILER_LABEL]
        · rw [check_blocktype_unknown s _ _ _ h h0 h1 h2]
          simp [h0, h1, h2]
  · intro s b0 h
    by_cases h0 : b0 = TRAILER_LABEL
    · subst h0
      rw [check_blocktype_trailer s [] h]
      simp
    · rw [check_blocktype_short s _ h h0]
      simp [h0]

/-- Witness for C7: at a cursor whose next two bytes are 0x2C 0x00 the
classifier reports an image block. -/
theorem C7_check_blocktype_witness :
    check_blocktype ⟨[0x2C, 0], 0, false⟩ = .ok .IMAGE_DATA := by
  have h := C7_check_blocktype.2.1 ⟨[0x2C, 0], 0, false⟩ 0x2C 0 [] (by rfl)
  simpa [IMAGE_SEPARATOR, TRAILER_LABEL] using h

/-- Claim C8: the minimal file "GIF89a" + a 7-byte screen descriptor
with the table-present bit clear + the 0x3B trailer parses to a root
aggregate with version GIF89a, no global color table and no frames,
emitting exactly the one advisory warning and no error, with the
stream closed. -/
theorem C8_minimal_file (w0 w1 h0 h1 p bg par : Nat)
    (hbit : (p >>> 7) &&& 0x1 = 0) :
    parse_metadata ([0x47, 0x49, 0x46, 0x38, 0x39, 0x61]
        ++ [w0, w1, h0, h1, p, bg, par] ++ [0x3B])
      = { result := .ok { version := .GIF89a
                          colortable := none
                          logical_screen_descriptor :=
                            { width := w0 + 256 * w1
                              height := h0 + 256 * h1
                              colortable_exists := (p >>> 7) &&& 0x1 ≠ 0
                              color_resolution := (p >>> 4) &&& 0x7
                              colortable_is_sorted := (p >>> 3) &&& 0x1 ≠ 0
                              colortable_size := p &&& 0x7
                              background_color_index := bg
                              pixel_aspect := par }
                          images := [] }
          warnings := ["warning: no global color table"]
          closed := true } := by
  have henc : ([0x47, 0x49, 0x46, 0x38, 0x39, 0x61]
        ++ [w0, w1, h0, h1, p, bg, par] ++ [0x3B] : List Nat)
      = GifSrc.encode ⟨VER_89a, w0, w1, h0, h1, p, bg, par, [], []⟩ := by
    simp [GifSrc.encode, SIG_GIF, VER_89a, encodeBlocks, TRAILER_LABEL]
  have hwf : GifSrc.wf ⟨VER_89a, w0, w1, h0, h1, p, bg, par, [], []⟩ :=
    ⟨Or.inr rfl, fun hx => absurd hbit hx, fun _ => rfl, by simp, trivial⟩
  rw [henc, parse_metadata_encode _ hwf]
  have hm : p >>> 7 % 2 = 0 := by
    rw [Nat.and_one_is_mod] at hbit
    omega
  simp [GifSrc.interp, GifSrc.interpVersion, GifSrc.lsd, interpBlocks,
    VER_87a, VER_89a, hm]

/-- Witness for C8: the all-zero screen descriptor instance. -/
theorem C8_minimal_file_witness :
    parse_metadata ([0x47, 0x49, 0x46, 0x38, 0x39, 0x61]
        ++ [0, 0, 0, 0, 0, 0, 0] ++ [0x3B])
      = { result := .ok { version := .GIF89a
                          colortable := none
                          logical_screen_descriptor :=
                            ⟨0, 0, false, 0, false, 0, 0, 0⟩
                          images := [] }
          warnings := ["warning: no global color table"]
          closed := true } := by
  have h := C8_minimal_file 0 0 0 0 0 0 0 (by decide)
  simpa using h

/-- Claim C9: two input byte streams that are identical except for the
payload bytes inside sub-block data chains (same length bytes at the
same positions, encoded by two shape-equal well-formed sources) parse
to equal outcomes: equal root aggregates, including equal per-frame
skipped-byte counts, equal warnings, equal resource handling. -/
theorem C9_payload_noninterference (g h : GifSrc)
    (hg : GifSrc.wf g) (hh : GifSrc.wf h) (hs : GifSrc.shapeEq g h) :
    parse_metadata g.encode = parse_metadata h.encode := by
  rw [parse_metadata_encode g hg, parse_metadata_encode h hh]
  obtain ⟨h1, h2, h3, h4, h5, h6, h7, h8, h9, h10⟩ := hs
  rw [gifInterp_shapeEq g h ⟨h1, h2, h3, h4, h5, h6, h7, h8, h9, h10⟩, h6]

/-- Witness for C9: two one-frame files whose single pixel-data chunk
payload differs (0xAA vs 0xBB) parse identically. -/
theorem C9_payload_noninterference_witness :
    parse_metadata (GifSrc.encode ⟨VER_89a, 0, 0, 0, 0, 0, 0, 0, [],
        [.image ⟨0, 0, 0, 0, 1, 0, 1, 0, 0, [], 2, [[0xAA]]⟩]⟩)
      = parse_metadata (GifSrc.encode ⟨VER_89a, 0, 0, 0, 0, 0, 0, 0, [],
          [.image ⟨0, 0, 0, 0, 1, 0, 1, 0, 0, [], 2, [[0xBB]]⟩]⟩) := by
  apply C9_payload_noninterference
  · refine ⟨Or.inr rfl, by decide, by decide, ?_, ?_⟩
    · intro b hb
      simp only [List.mem_singleton] at hb
      subst hb
      exact ⟨by decide, by decide, by decide⟩
    · simp [blocksOk]
  · refine ⟨Or.inr rfl, by decide, by decide, ?_, ?_⟩
    · intro b hb
      simp only [List.mem_singleton] at hb
      subst hb
      exact ⟨by decide, by decide, by decide⟩
    · simp [blocksOk]
  · exact ⟨rfl, rfl, rfl, rfl, rfl, rfl, rfl, rfl, rfl,
      .cons ⟨rfl, rfl, rfl, rfl, rfl, rfl, rfl, rfl, rfl, rfl, rfl, rfl⟩ .nil⟩

/-- Claim C10: the block classifier only ever returns the four
variants Trailer, Image-Data, Graphic-Control or Unknown-Extension
(never the comment, plaintext or application variants of the enum),
and consequently the dispatch loop's fallback unexpected-blocktype
error is unreachable: no input whatsoever makes the parse return it. -/
theorem C10_classifier_range :
    (∀ (s : Cursor) (bt : BlockType), check_blocktype s = .ok bt →
      bt = .TRAILER ∨ bt = .IMAGE_DATA ∨ bt = .EXT_GRAPHIC_CONTROL
        ∨ bt = .EXT_UNKNOWN)
    ∧ (∀ data : List Nat,
        (parse_metadata data).result ≠ .error .unexpectedBlocktype) :=
  ⟨check_blocktype_ok_cases, parse_metadata_result_ne_ub⟩

/-- Witness for C10: applied at a cursor sitting on a trailer byte. -/
theorem C10_classifier_range_witness :
    BlockType.TRAILER = BlockType.TRAILER
      ∨ BlockType.TRAILER = BlockType.IMAGE_DATA
      ∨ BlockType.TRAILER = BlockType.EXT_GRAPHIC_CONTROL
      ∨ BlockType.TRAILER = BlockType.EXT_UNKNOWN :=
  C10_classifier_range.1 ⟨[0x3B], 0, false⟩ .TRAILER (by rfl)
